import Mathlib

/-!
Shallow embedding of the titan db layer (expire.go, string.go, zset.go,
limitersMgr.go) over a flat byte-string key-value store, together with
proofs about the embedded operations.

Byte strings are `List Nat`; the KV snapshot inside one transaction is a
function `Bytes → Option Bytes`, and the write set of a transaction is
applied eagerly (`Store.set` / `Store.del`), which matches the snapshot
semantics the claims are stated against.
-/

namespace Titan

abbrev Byte := Nat
abbrev Bytes := List Nat

/-- ASCII codes used by the key layouts. -/
def colon : Byte := 58

def charM : Byte := 77

def charD : Byte := 68

def charS : Byte := 83

def dollar : Byte := 36

/-- `n`-byte big-endian encoding of a natural number (low bytes kept). -/
def beBytes : Nat → Nat → Bytes
  | 0, _ => []
  | n + 1, v => beBytes n (v / 256) ++ [v % 256]

/-- Big-endian decoding of a byte string. -/
def beNat (b : Bytes) : Nat := b.foldl (fun a x => a * 256 + x) 0

/-- The KV snapshot of one transaction, with the transaction's writes applied. -/
def Store := Bytes → Option Bytes

def Store.set (s : Store) (k v : Bytes) : Store := fun q => if q = k then some v else s q

def Store.del (s : Store) (k : Bytes) : Store := fun q => if q = k then none else s q

/-- Error kinds of the db layer (ErrKeyNotFound, ErrTypeMismatch, ErrInvalidLength);
`badSplit` stands for the panic of `splitMetaKey` on a key with no colon. -/
inductive DBErr where
  | keyNotFound
  | typeMismatch
  | invalidLength
  | badSplit
  deriving DecidableEq

/-- Object type tags. Modelled from the spec: object.go is not among the staged
files; the tags are the Go `iota` constants, `ObjectString` being the zero value
of the `ObjectType` type. -/
def ObjectString : Nat := 0

def ObjectList : Nat := 1

def ObjectSet : Nat := 2

def ObjectZSet : Nat := 3

def ObjectHash : Nat := 4

/-- Encoding tags, Go `iota` constants with `ObjectEncodingRaw` the zero value.
Modelled from the spec: object.go is not among the staged files. -/
def ObjectEncodingRaw : Nat := 0

def ObjectEncodingHT : Nat := 2

/-- Object header per spec §4.2.3:
`[type(1)][encoding(1)][created_at(8)][updated_at(8)][expire_at(8)][id(16)]`.
The Go field `Type` is called `Typ` here (`Type` is reserved in Lean). -/
structure Object where
  Typ : Nat
  Encoding : Nat
  CreatedAt : Nat
  UpdatedAt : Nat
  ExpireAt : Nat
  ID : Bytes
  deriving DecidableEq

/-- Byte length of the encoded header: 1+1+8+8+8+16. -/
def ObjectEncodingLength : Nat := 42

/-- Modelled from the spec: header layout of §4.2.3 (object.go is not among
the staged files). -/
def EncodeObject (o : Object) : Bytes :=
  o.Typ :: o.Encoding ::
    (beBytes 8 o.CreatedAt ++ beBytes 8 o.UpdatedAt ++ beBytes 8 o.ExpireAt ++ o.ID)

/-- Modelled from the spec: inverse of the §4.2.3 layout, `invalid_length` on a
truncated header (object.go is not among the staged files). -/
def DecodeObject (b : Bytes) : Except DBErr Object :=
  if b.length < ObjectEncodingLength then .error .invalidLength
  else .ok
    { Typ := b.headD 0
      Encoding := (b.drop 1).headD 0
      CreatedAt := beNat ((b.drop 2).take 8)
      UpdatedAt := beNat ((b.drop 10).take 8)
      ExpireAt := beNat ((b.drop 18).take 8)
      ID := (b.drop 26).take 16 }

/-- Modelled from the spec §3.2: the db id is 3 bytes big-endian. -/
def dbidBytes (d : Nat) : Bytes := beBytes 3 d

/-- Inverse of `dbidBytes` (src/db/expire.go uses it on the 3 bytes after the
first colon of a meta key). -/
def toDBID (b : Bytes) : Nat := beNat b

structure DB where
  Namespace : Bytes
  ID : Nat

/-- Modelled from the spec §3.2: meta key `NS:D:M:K` (db.go is not among the
staged files; the layout also matches src/db/expire.go's `toTikvDataKey`
with tag byte `M`). -/
def MetaKey (db : DB) (key : Bytes) : Bytes :=
  db.Namespace ++ colon :: (dbidBytes db.ID ++ colon :: charM :: colon :: key)

/-- src/db/expire.go `toTikvDataKey`: `NS:D:D:ID`. -/
def toTikvDataKey (ns : Bytes) (id : Nat) (key : Bytes) : Bytes :=
  ns ++ colon :: (dbidBytes id ++ colon :: charD :: colon :: key)

/-- src/db/expire.go `toTikvScorePrefix`: `NS:D:S:K`. -/
def toTikvScorePfx (ns : Bytes) (id : Nat) (key : Bytes) : Bytes :=
  ns ++ colon :: (dbidBytes id ++ colon :: charS :: colon :: key)

/-- Modelled from the spec §3.2: data key `NS:D:D:ID` (db.go is not among the
staged files); same layout as src/db/expire.go's `toTikvDataKey`. -/
def DataKey (db : DB) (id : Bytes) : Bytes := toTikvDataKey db.Namespace db.ID id

/-- src/db/zset.go `ZSetScorePrefix`: builds `NS:D:S:<key>` from its `key`
argument (all call sites in the source pass `zset.meta.ID`). -/
def ZSetScorePrefix (db : DB) (key : Bytes) : Bytes :=
  db.Namespace ++ colon :: (dbidBytes db.ID ++ colon :: charS :: colon :: key)

/-- src/db/zset.go `zsetMemberKey`. -/
def zsetMemberKey (dkey member : Bytes) : Bytes := dkey ++ colon :: member

/-- src/db/zset.go `zsetScoreKey`. -/
def zsetScoreKey (sp score member : Bytes) : Bytes :=
  sp ++ colon :: (score ++ colon :: member)

/-- Value stored under score-index entries. Modelled from the spec §3.2: the
score index maps to an empty value (the Go `NilValue` is not among the staged
files). -/
def NilValue : Bytes := []

/-! ### CRC32 (IEEE) and the expire-index keys, src/db/expire.go -/

def crc32Poly : Nat := 0xEDB88320

def crc32Round (c : Nat) : Nat :=
  if c % 2 = 1 then Nat.xor (c / 2) crc32Poly else c / 2

def crc32Byte (c b : Nat) : Nat := crc32Round^[8] (Nat.xor c b)

/-- `hash/crc32.ChecksumIEEE`. -/
def crc32 (data : Bytes) : Nat :=
  Nat.xor (data.foldl crc32Byte 0xFFFFFFFF) 0xFFFFFFFF

/-- `"$sys:0:at:"` -/
def expireKeyPfx : Bytes := [36, 115, 121, 115, 58, 48, 58, 97, 116, 58]

/-- `"$sys:0:at"` (the sharded form glues the 4 decimal digits right after it). -/
def hashExpireKeyPfx : Bytes := [36, 115, 121, 115, 58, 48, 58, 97, 116]

/-- `fmt.Sprintf("%04d", n)` for `n < 10000`. -/
def expireHashDigits (n : Nat) : Bytes :=
  [48 + n / 1000 % 10, 48 + n / 100 % 10, 48 + n / 10 % 10, 48 + n % 10]

/-- Modelled from the spec (§9, Time): timestamps are stored 8-byte big-endian;
codec.go is not among the staged files. Used for the non-negative timestamps
of the expire index. -/
def EncodeInt64 (v : Nat) : Bytes := beBytes 8 v

def DecodeInt64 (b : Bytes) : Nat := beNat b

/-- src/db/expire.go `expireKey`: `$sys:0:at<NNNN>:<ts8>:<mkey>` with
`NNNN = crc32(mkey) mod 256` in 4 decimal digits. -/
def expireKey (key : Bytes) (ts : Nat) : Bytes :=
  hashExpireKeyPfx ++
    (expireHashDigits (crc32 key % 256) ++ colon :: (EncodeInt64 ts ++ colon :: key))

/-- src/db/expire.go `expireAt` applied to the write set: delete the old
expire-index entry when `oldAt > 0`, insert the new one when `newAt > 0`.
(The source's unused `objType` parameter is dropped.) -/
def expireAtOp (s : Store) (mkey objID : Bytes) (oldAt newAt : Nat) : Store :=
  let s1 := if 0 < oldAt then s.del (expireKey mkey oldAt) else s
  if 0 < newAt then s1.set (expireKey mkey newAt) objID else s1

/-- src/db/expire.go `unExpireAt`. -/
def unExpireAtOp (s : Store) (mkey : Bytes) (expAt : Nat) : Store :=
  if expAt = 0 then s else s.del (expireKey mkey expAt)

/-- Modelled from the spec §1: the data-prefix GC is handed off to the
out-of-scope cluster GC; the handoff records the prefix under a system GC key
(gc.go is not among the staged files). -/
def gcKeyPfx : Bytes := [36, 115, 121, 115, 58, 48, 58, 71, 67, 58]

def gc (s : Store) (dataPfx : Bytes) : Store := s.set (gcKeyPfx ++ dataPfx) [48]

/-- src/db/expire.go `splitMetaKey`: split at the first colon, take the next
3 bytes as db id, return the tail from `idx+6`. `none` models the Go panic on
a key with no colon. -/
def splitMetaKey (key : Bytes) : Option (Bytes × Nat × Bytes) :=
  match key.findIdx? (fun b => b == colon) with
  | none => none
  | some idx =>
      some (key.take idx, toDBID ((key.drop (idx + 1)).take 3), key.drop (idx + 6))

/-- Modelled from the spec §4.4 step 3b: load the target meta key and decode
its header; missing key is `ErrKeyNotFound` (the Go `getObject` is not among
the staged files). -/
def getObject (s : Store) (mkey : Bytes) : Except DBErr Object :=
  match s mkey with
  | none => .error .keyNotFound
  | some v => DecodeObject v

/-- src/db/expire.go `gcDataKey` (its `key` argument is only logged and is
dropped here). -/
def gcDataKey (s : Store) (ns : Bytes) (dbid : Nat) (id : Bytes) : Store :=
  gc s (toTikvDataKey ns dbid id)

/-- src/db/expire.go `doExpire`. -/
def doExpire (s : Store) (mkey id : Bytes) (expAt : Nat) : Except DBErr Store :=
  match splitMetaKey mkey with
  | none => .error .badSplit
  | some (ns, dbid, _rawkey) =>
    match getObject s mkey with
    | .error .keyNotFound => .ok (gcDataKey s ns dbid id)
    | .error e => .error e
    | .ok obj =>
      let id1 := if obj.ID.length < id.length then id.take obj.ID.length else id
      if obj.ID ≠ id1 then .ok (gcDataKey s ns dbid id1)
      else if obj.ExpireAt ≠ expAt then .ok s
      else
        let s1 := Store.del s mkey
        if obj.Typ = ObjectString then .ok s1
        else .ok (gcDataKey s1 ns dbid id1)

/-! ### Strings, src/db/string.go -/

/-- Go `StringMeta`: the embedded `Object` header plus the inline value.
`Value = none` models the Go nil slice. -/
structure StringMeta where
  Obj : Object
  Value : Option Bytes
  deriving DecidableEq

/-- Go `String` object (its transaction handle is passed separately). -/
structure StrObj where
  key : Bytes
  Meta : StringMeta
  deriving DecidableEq

/-- The zero-valued Go `String` struct allocated by `GetString` before decode
(all header fields are Go zero values, the value slice is nil). -/
def zeroStrObj (key : Bytes) : StrObj :=
  { key := key
    Meta :=
      { Obj := { Typ := 0, Encoding := 0, CreatedAt := 0, UpdatedAt := 0, ExpireAt := 0, ID := [] }
        Value := none } }

/-- src/db/string.go `(*String).decode`: on an already-expired header the
method returns early and leaves the receiver untouched; otherwise it installs
the header and, when more than the header was stored, the inline value. -/
def StrObj.decode (s : StrObj) (b : Bytes) (now : Nat) : Except DBErr StrObj :=
  match DecodeObject b with
  | .error e => .error e
  | .ok obj =>
    if obj.ExpireAt ≠ 0 ∧ obj.ExpireAt < now then .ok s
    else
      .ok { s with Meta :=
        { Obj := obj
          Value :=
            if ObjectEncodingLength < b.length then some (b.drop ObjectEncodingLength)
            else s.Meta.Value } }

/-- src/db/string.go `GetString` (`Now()` passed as `now`). -/
def GetString (store : Store) (db : DB) (key : Bytes) (now : Nat) : Except DBErr StrObj :=
  let str := zeroStrObj key
  match store (MetaKey db key) with
  | none => .ok str
  | some b =>
    match str.decode b now with
    | .error e => .error e
    | .ok s1 =>
      if s1.Meta.Obj.Typ ≠ ObjectString then .error .typeMismatch
      else if s1.Meta.Obj.Encoding ≠ ObjectEncodingRaw then .error .typeMismatch
      else .ok { s1 with Meta.Obj.UpdatedAt := now }

/-- src/db/string.go `(*String).Exist`. -/
def StrObj.Exist (s : StrObj) : Bool := s.Meta.Value.isSome

/-- src/db/string.go `(*String).Get`. -/
def StrObj.Get (s : StrObj) : Except DBErr Bytes :=
  if s.Exist = false then .error .keyNotFound else .ok (s.Meta.Value.getD [])

/-- src/db/string.go `(*String).encode`: header bytes with the value appended. -/
def StrObj.encode (s : StrObj) : Bytes := EncodeObject s.Meta.Obj ++ s.Meta.Value.getD []

/-- src/db/string.go `(*String).Set` applied to the write set: with a positive
expiry the expire index is rewritten via `expireAt`; otherwise the old entry is
removed via `unExpireAt` and `expire_at` is cleared. Returns the new store and
the mutated object. -/
def StrObj.Set (str : StrObj) (store : Store) (db : DB) (val : Bytes) (expire : List Nat)
    (now : Nat) : Store × StrObj :=
  let mkey := MetaKey db str.key
  if expire ≠ [] ∧ 0 < expire.headD 0 then
    let old := str.Meta.Obj.ExpireAt
    let newAt := now + expire.headD 0
    let store1 := expireAtOp store mkey str.Meta.Obj.ID old newAt
    let str1 := { str with Meta := { str.Meta with Obj := { str.Meta.Obj with ExpireAt := newAt }, Value := some val } }
    (store1.set mkey str1.encode, str1)
  else
    let store1 := unExpireAtOp store mkey str.Meta.Obj.ExpireAt
    let str1 := { str with Meta := { str.Meta with Obj := { str.Meta.Obj with ExpireAt := 0 }, Value := some val } }
    (store1.set mkey str1.encode, str1)

/-- src/db/string.go `(*String).Append` applied to the write set: concatenates
the value, sets `ExpireAt` to 0 in the header, rewrites the meta entry, and
touches nothing else (in particular no expire-index key). Returns the new
length, the new store and the mutated object. -/
def StrObj.Append (str : StrObj) (store : Store) (db : DB) (value : Bytes) :
    Nat × Store × StrObj :=
  let v1 : Option Bytes :=
    if str.Meta.Value = none ∧ value = [] then none
    else some (str.Meta.Value.getD [] ++ value)
  let str1 := { str with Meta := { str.Meta with Obj := { str.Meta.Obj with ExpireAt := 0 }, Value := v1 } }
  ((v1.getD []).length, store.set (MetaKey db str.key) str1.encode, str1)

/-- src/db/string.go `(*String).GetRange`. `none` models the Go panic raised by
`Value[start:][:end+1]` when `end+1` exceeds the second slice's capacity (the
capacity is the stored value's length here); the Go nil result is `some []`. -/
def StrObj.GetRange (s : StrObj) (start endI : Int) : Option Bytes :=
  let v := s.Meta.Value.getD []
  let vlen : Int := v.length
  let e0 := if endI < 0 then vlen + endI else endI
  let s0 := if start < 0 then vlen + start else start
  if s0 > e0 ∨ s0 > vlen ∨ e0 < 0 then some []
  else
    let e1 := if e0 > vlen then vlen else e0
    let s1 := if s0 < 0 then 0 else s0
    if vlen - s1 < e1 + 1 then none
    else some ((v.drop s1.toNat).take (e1 + 1).toNat)

/-! ### Sorted sets, src/db/zset.go -/

/-- Go `ZSetMeta`: embedded `Object` plus the signed 64-bit length. -/
structure ZSetMeta where
  Obj : Object
  Len : Int
  deriving DecidableEq

/-- Go `int64(uint64)` reinterpretation. -/
def int64OfUInt64 (v : Nat) : Int :=
  if v < 2 ^ 63 then (v : Int) else (v : Int) - 2 ^ 64

/-- src/db/zset.go `(*ZSet).encodeMeta`: header bytes plus
`binary.BigEndian.PutUint64(uint64(meta.Len))`. -/
def encodeZSetMeta (m : ZSetMeta) : Bytes :=
  EncodeObject m.Obj ++ beBytes 8 (m.Len % (2 ^ 64)).toNat

/-- src/db/zset.go `(*ZSet).decodeMeta`. -/
def decodeZSetMeta (b : Bytes) : Except DBErr ZSetMeta :=
  match DecodeObject b with
  | .error e => .error e
  | .ok obj =>
    if obj.Typ ≠ ObjectZSet then .error .typeMismatch
    else
      let m := b.drop ObjectEncodingLength
      if m.length ≠ 8 then .error .invalidLength
      else .ok { Obj := obj, Len := int64OfUInt64 (beNat m) }

/-- src/db/zset.go `GetZSet` (`Now()` and the fresh `UUID()` passed in). -/
def GetZSet (store : Store) (db : DB) (key : Bytes) (now : Nat) (uuid : Bytes) :
    Except DBErr ZSetMeta :=
  match store (MetaKey db key) with
  | none =>
    .ok { Obj := { Typ := ObjectZSet, Encoding := ObjectEncodingHT, CreatedAt := now,
                   UpdatedAt := now, ExpireAt := 0, ID := uuid }
          Len := 0 }
  | some b => decodeZSetMeta b

/-! ### Score encoding, modelled from the spec §4.1 on 64-bit IEEE-754 bit
patterns (codec.go is not among the staged files): sign bit 0 → flip the sign
bit, sign bit 1 → flip all 64 bits, store big-endian. A Go `float64` is its
bit pattern `u < 2^64` here. -/

def flipScoreBits (u : Nat) : Nat :=
  if u < 2 ^ 63 then u + 2 ^ 63 else 2 ^ 64 - 1 - u

def EncodeFloat64 (u : Nat) : Bytes := beBytes 8 (flipScoreBits u)

def DecodeFloat64 (b : Bytes) : Nat :=
  let v := beNat b
  if 2 ^ 63 ≤ v then v - 2 ^ 63 else 2 ^ 64 - 1 - v

/-- Bit pattern of a NaN: exponent all ones, mantissa non-zero. -/
def isNaNBits (u : Nat) : Bool := (u / 2 ^ 52) % 2 ^ 11 == 2047 && u % 2 ^ 52 != 0

/-- Bit patterns of +0.0 and -0.0. -/
def isZeroBits (u : Nat) : Bool := u == 0 || u == 2 ^ 63

/-- Finite float: exponent not all ones. -/
def isFiniteBits (u : Nat) : Bool := (u / 2 ^ 52) % 2 ^ 11 != 2047

/-- Go `==` on two float64 bit patterns: false on any NaN, true on equal
patterns and on the two zeros. -/
def goFloatEq (a b : Nat) : Bool :=
  !isNaNBits a && !isNaNBits b && (a == b || (isZeroBits a && isZeroBits b))

/-- One iteration of the `ZAdd` loop over `(member, score, oldValue)`:
equal score → no-op; different score → delete the old score key, write the
member subkey and the new score key; absent → write both and count it. -/
def zaddStep (dkey sp : Bytes) (acc : Store × Int) (p : Bytes × Nat × Option Bytes) :
    Store × Int :=
  match p.2.2 with
  | some ov =>
    if goFloatEq p.2.1 (DecodeFloat64 ov) then acc
    else
      let s1 := acc.1.del (zsetScoreKey sp ov p.1)
      let s2 := s1.set (zsetMemberKey dkey p.1) (EncodeFloat64 p.2.1)
      let s3 := s2.set (zsetScoreKey sp (EncodeFloat64 p.2.1) p.1) NilValue
      (s3, acc.2)
  | none =>
    let s2 := acc.1.set (zsetMemberKey dkey p.1) (EncodeFloat64 p.2.1)
    let s3 := s2.set (zsetScoreKey sp (EncodeFloat64 p.2.1) p.1) NilValue
    (s3, acc.2 + 1)

/-- src/db/zset.go `(*ZSet).ZAdd` applied to the write set. The multi-get of
old values is skipped when `meta.Len = 0` (all old values nil), exactly as the
source does; the score-index prefix is built from `meta.ID` as at the source's
call site. Returns `(added, store, meta)` after `updateMeta`. -/
def ZAdd (store : Store) (db : DB) (key : Bytes) (meta : ZSetMeta)
    (members : List Bytes) (scores : List Nat) : Int × Store × ZSetMeta :=
  let dkey := DataKey db meta.Obj.ID
  let oldValues : List (Option Bytes) :=
    if 0 < meta.Len then members.map (fun m => store (zsetMemberKey dkey m))
    else members.map (fun _ => none)
  let sp := ZSetScorePrefix db meta.Obj.ID
  let r := (members.zip (scores.zip oldValues)).foldl (zaddStep dkey sp) (store, 0)
  let meta1 := { meta with Len := meta.Len + r.2 }
  (r.2, r.1.set (MetaKey db key) (encodeZSetMeta meta1), meta1)

/-- One iteration of the `ZRem` loop: members with a nil score are skipped,
otherwise the score key and the member subkey are deleted. -/
def zremStep (dkey sp : Bytes) (acc : Store × Int) (p : Bytes × Option Bytes) :
    Store × Int :=
  match p.2 with
  | none => acc
  | some sc =>
    let s1 := acc.1.del (zsetScoreKey sp sc p.1)
    let s2 := s1.del (zsetMemberKey dkey p.1)
    (s2, acc.2 + 1)

/-- src/db/zset.go `(*ZSet).ZRem` applied to the write set: batch-get the
scores, delete present members, decrement the length; when the new length is 0
delete the meta key and, if `expire_at > 0`, the expire-index entry, otherwise
persist the meta. Returns `(deleted, store)`. -/
def ZRem (store : Store) (db : DB) (key : Bytes) (meta : ZSetMeta)
    (members : List Bytes) : Int × Store :=
  let dkey := DataKey db meta.Obj.ID
  let scores := members.map (fun m => store (zsetMemberKey dkey m))
  let sp := ZSetScorePrefix db meta.Obj.ID
  let r := (members.zip scores).foldl (zremStep dkey sp) (store, 0)
  let newLen := meta.Len - r.2
  let mkey := MetaKey db key
  if newLen = 0 then
    let s1 := r.1.del mkey
    let s2 := if 0 < meta.Obj.ExpireAt then unExpireAtOp s1 mkey meta.Obj.ExpireAt else s1
    (r.2, s2)
  else
    (r.2, r.1.set mkey (encodeZSetMeta { meta with Len := newLen }))

/-- src/db/zset.go `(*ZSet).ZScore`: reads the member subkey and decodes the
score. The source then renders the float with `strconv.FormatFloat`; the
decoded bit pattern is returned here, the rendering being presentation only. -/
def ZScore (store : Store) (db : DB) (meta : ZSetMeta) (member : Bytes) : Option Nat :=
  match store (zsetMemberKey (DataKey db meta.Obj.ID) member) with
  | none => none
  | some bs => some (DecodeFloat64 bs)

/-! ### The `ZAnyOrderRange` scan loop, src/db/zset.go lines 216-245.
The iterator is the list of remaining `(key, value)` pairs of the snapshot;
`items` is the accumulated output. The source renders each score with
`strconv.FormatFloat`; the loop here appends the raw 8 score bytes instead,
the rendering being presentation only. -/

structure RangeState where
  i : Int
  iter : List (Bytes × Bytes)
  items : List Bytes
  deriving DecidableEq

/-- The loop condition `i <= stop && iter.Valid() && iter.Key().HasPrefix(scorePrefix)`. -/
def zrangeGuard (sp : Bytes) (stop : Int) (st : RangeState) : Bool :=
  decide (st.i ≤ stop) &&
    (match st.iter with
     | [] => false
     | (k, _) :: _ => sp.isPrefixOf k)

/-- One iteration of the loop body. A key too short to decode hits the
source's `continue`, which skips `i++` and `iter.Next()`: the state is
returned unchanged. -/
def zrangeStep (sp : Bytes) (start : Int) (withScore positiveOrder : Bool)
    (st : RangeState) : RangeState :=
  match st.iter with
  | [] => st
  | (k, _) :: rest =>
    if start ≤ st.i then
      if k.length < sp.length + 1 + 8 + 1 then st
      else
        let scoreAndMember := k.drop (sp.length + 1)
        let score := scoreAndMember.take 8
        let member := scoreAndMember.drop 9
        let items1 := st.items ++ [member]
        let items2 :=
          if withScore then
            if positiveOrder then items1 ++ [score] else st.items ++ [score, member]
          else items1
        { i := st.i + 1, iter := rest, items := items2 }
    else { i := st.i + 1, iter := rest, items := st.items }

/-- The scan loop run with fuel; enough fuel reproduces the source loop
whenever the source loop terminates. -/
def zrangeLoop (sp : Bytes) (start stop : Int) (ws po : Bool) :
    Nat → RangeState → RangeState
  | 0, st => st
  | fuel + 1, st =>
    if zrangeGuard sp stop st then zrangeLoop sp start stop ws po fuel (zrangeStep sp start ws po st)
    else st

/-! ### The balance loop weight update, src/db/limitersMgr.go.
Go float64 quantities are modelled as rationals; the comparisons and the
clamped multiplicative updates are order-theoretic and carry over. -/

def MAXIMUM_WEIGHT : Rat := 1

def MINIMUM_WEIGHT : Rat := 1 / 10

/-- One peer status record scanned by `scanStatusInOtherTitan`, already parsed. -/
structure PeerStat where
  ip : Bytes
  weight : Rat
  qps : Rat
  lastActive : Int

/-- src/db/limitersMgr.go `scanStatusInOtherTitan`, freshness filter: keep
records of other nodes whose last-active time is within `titanStatusLifetime`
(`now - lastActive` models `time.Since`). -/
def scanFreshPeers (recs : List PeerStat) (selfIp : Bytes) (now lifetime : Int) :
    List (Rat × Rat) :=
  (recs.filter (fun r => r.ip ≠ selfIp && decide (now - r.lastActive ≤ lifetime))).map
    (fun r => (r.weight, r.qps))

/-- The peer scan of `balanceLimit` lines 462-473 with its `break`:
`(otherHaveHigh, otherAllLow)`. -/
def peerFlags (qpsGlobalLimit totalWeight multiplyUsage devideUsage : Rat) :
    List (Rat × Rat) → Bool × Bool
  | [] => (false, true)
  | (w, q) :: rest =>
    let target := qpsGlobalLimit * (w / totalWeight)
    if q ≥ target * multiplyUsage then (true, false)
    else
      let r := peerFlags qpsGlobalLimit totalWeight multiplyUsage devideUsage rest
      (r.1, if q ≥ target * devideUsage then false else r.2)

/-- src/db/limitersMgr.go `balanceLimit` lines 455-490: the new `cl.weight`. -/
def balanceWeight (w avgQps qpsGlobalLimit : Rat) (peers : List (Rat × Rat))
    (devideUsage multiplyUsage factor : Rat) : Rat :=
  let totalWeight := peers.foldl (fun a p => a + p.1) w
  let selfLimitInTarget := qpsGlobalLimit * (w / totalWeight)
  if avgQps < selfLimitInTarget * devideUsage then
    let fl := peerFlags qpsGlobalLimit totalWeight multiplyUsage devideUsage peers
    if fl.1 then
      let w1 := w / factor
      if w1 < MINIMUM_WEIGHT then MINIMUM_WEIGHT else w1
    else if fl.2 then
      let w1 := w * factor
      if w1 > MAXIMUM_WEIGHT then MAXIMUM_WEIGHT else w1
    else w
  else if avgQps ≥ selfLimitInTarget * multiplyUsage then
    let w1 := w * factor
    if w1 > MAXIMUM_WEIGHT then MAXIMUM_WEIGHT else w1
  else w

/-- One full run of `balanceLimit`: the early returns (`qpsGlobalLimit <= 0`,
the skip-balance flag, a scan error) leave the weight unchanged. -/
def balanceRun (w : Rat) (qpsGlobalLimit : Rat) (skip : Bool) (scanFailed : Bool)
    (avgQps : Rat) (peers : List (Rat × Rat)) (devideUsage multiplyUsage factor : Rat) : Rat :=
  if qpsGlobalLimit ≤ 0 then w
  else if skip then w
  else if scanFailed then w
  else balanceWeight w avgQps qpsGlobalLimit peers devideUsage multiplyUsage factor

/-- Common shape of all tagged keys: `NS : D3 : t : rest`. Every key built by
`MetaKey`, `DataKey`, `ZSetScorePrefix` and their derived member/score keys is
an instance of this shape. -/
def tagKey (ns : Bytes) (d : Nat) (t : Byte) (r : Bytes) : Bytes :=
  ns ++ colon :: (beBytes 3 d ++ colon :: t :: colon :: r)


/-! ### Helper lemmas -/

theorem Store.set_apply (s : Store) (k v q : Bytes) :
    (s.set k v) q = if q = k then some v else s q := rfl

theorem Store.del_apply (s : Store) (k q : Bytes) :
    (s.del k) q = if q = k then none else s q := rfl

theorem pow256_8 : (256 : Nat) ^ 8 = 2 ^ 64 := by norm_num

theorem pow256_3 : (256 : Nat) ^ 3 = 2 ^ 24 := by norm_num

theorem beBytes_length (n v : Nat) : (beBytes n v).length = n := by
  induction n generalizing v with
  | zero => rfl
  | succ n ih => simp [beBytes, ih]

theorem beNat_append_last (xs : Bytes) (b : Byte) :
    beNat (xs ++ [b]) = beNat xs * 256 + b := by
  simp [beNat, List.foldl_append]

theorem beNat_beBytes (n v : Nat) (h : v < 256 ^ n) : beNat (beBytes n v) = v := by
  induction n generalizing v with
  | zero =>
      simp only [Nat.pow_zero, Nat.lt_one_iff] at h
      subst h; rfl
  | succ n ih =>
      have hdiv : v / 256 < 256 ^ n := by
        apply Nat.div_lt_of_lt_mul
        rw [Nat.mul_comm, ← Nat.pow_succ]
        exact h
      rw [beBytes, beNat_append_last, ih (v / 256) hdiv]
      omega

theorem DecodeFloat64_EncodeFloat64 (u : Nat) (h : u < 2 ^ 64) :
    DecodeFloat64 (EncodeFloat64 u) = u := by
  have hf : flipScoreBits u < 256 ^ 8 := by
    rw [pow256_8]; unfold flipScoreBits; split <;> omega
  unfold DecodeFloat64 EncodeFloat64
  rw [beNat_beBytes 8 _ hf]
  dsimp only
  unfold flipScoreBits
  by_cases hu : u < 2 ^ 63
  · rw [if_pos hu, if_pos (by omega)]
    omega
  · rw [if_neg hu, if_neg (by omega)]
    omega

theorem EncodeFloat64_inj {a b : Nat} (ha : a < 2 ^ 64) (hb : b < 2 ^ 64)
    (h : EncodeFloat64 a = EncodeFloat64 b) : a = b := by
  have := congrArg DecodeFloat64 h
  rwa [DecodeFloat64_EncodeFloat64 a ha, DecodeFloat64_EncodeFloat64 b hb] at this

theorem MetaKey_tagKey (db : DB) (k : Bytes) :
    MetaKey db k = tagKey db.Namespace db.ID charM k := rfl

theorem DataKey_tagKey (db : DB) (id : Bytes) :
    DataKey db id = tagKey db.Namespace db.ID charD id := rfl

theorem ZSetScorePrefix_tagKey (db : DB) (id : Bytes) :
    ZSetScorePrefix db id = tagKey db.Namespace db.ID charS id := rfl

theorem toTikvDataKey_tagKey (ns : Bytes) (d : Nat) (id : Bytes) :
    toTikvDataKey ns d id = tagKey ns d charD id := rfl

theorem zsetMemberKey_tagKey (db : DB) (id m : Bytes) :
    zsetMemberKey (DataKey db id) m = tagKey db.Namespace db.ID charD (id ++ colon :: m) := by
  simp [zsetMemberKey, DataKey, toTikvDataKey, tagKey, dbidBytes, List.append_assoc]

theorem zsetScoreKey_tagKey (db : DB) (id sc m : Bytes) :
    zsetScoreKey (ZSetScorePrefix db id) sc m =
      tagKey db.Namespace db.ID charS (id ++ colon :: (sc ++ colon :: m)) := by
  simp [zsetScoreKey, ZSetScorePrefix, tagKey, dbidBytes, List.append_assoc]

theorem tagKey_inj {ns : Bytes} {d : Nat} {t u : Byte} {r q : Bytes}
    (h : tagKey ns d t r = tagKey ns d u q) : t = u ∧ r = q := by
  unfold tagKey at h
  have h1 := List.append_cancel_left h
  injection h1 with _ h2
  have h3 := List.append_cancel_left h2
  injection h3 with _ h4
  injection h4 with h5 h6
  injection h6 with _ h7
  exact ⟨h5, h7⟩

theorem tagKey_head {ns : Bytes} (h : ns ≠ []) (d : Nat) (t : Byte) (r : Bytes) :
    (tagKey ns d t r).head? = ns.head? := by
  unfold tagKey
  cases ns with
  | nil => exact absurd rfl h
  | cons a l => rfl

theorem expireKey_head (k : Bytes) (ts : Nat) : (expireKey k ts).head? = some dollar := rfl

theorem gcKey_head (p : Bytes) : (gcKeyPfx ++ p).head? = some dollar := rfl

theorem expireKey_ne_tagKey {ns : Bytes} (h0 : ns ≠ []) (h1 : ns.head? ≠ some dollar)
    {k : Bytes} {ts : Nat} {d : Nat} {t : Byte} {r : Bytes} :
    expireKey k ts ≠ tagKey ns d t r := by
  intro he
  apply h1
  rw [← tagKey_head h0 d t r, ← he, expireKey_head]

theorem gcKey_ne_tagKey {ns : Bytes} (h0 : ns ≠ []) (h1 : ns.head? ≠ some dollar)
    {p : Bytes} {d : Nat} {t : Byte} {r : Bytes} :
    gcKeyPfx ++ p ≠ tagKey ns d t r := by
  intro he
  apply h1
  rw [← tagKey_head h0 d t r, ← he, gcKey_head]

theorem expireKey_ts_inj {k : Bytes} {t1 t2 : Nat} (h1 : t1 < 2 ^ 64) (h2 : t2 < 2 ^ 64)
    (h : expireKey k t1 = expireKey k t2) : t1 = t2 := by
  unfold expireKey at h
  have h3 := List.append_cancel_left h
  have h4 := List.append_cancel_left h3
  injection h4 with _ h5
  have h6 := (List.append_inj h5 (by simp [EncodeInt64, beBytes_length])).1
  have h7 := congrArg beNat h6
  unfold EncodeInt64 at h7
  rwa [beNat_beBytes 8 t1 (by rw [pow256_8]; exact h1),
       beNat_beBytes 8 t2 (by rw [pow256_8]; exact h2)] at h7

theorem drop8_append (a l : Bytes) (h : a.length = 8) (i : Nat) :
    (a ++ l).drop (8 + i) = l.drop i := by
  rw [← h, List.drop_append]

theorem EncodeObject_length (o : Object) : (EncodeObject o).length = 26 + o.ID.length := by
  simp [EncodeObject, beBytes_length]
  omega

theorem DecodeObject_encode (o : Object) (extra : Bytes) (h16 : o.ID.length = 16)
    (hc : o.CreatedAt < 2 ^ 64) (hu : o.UpdatedAt < 2 ^ 64) (he : o.ExpireAt < 2 ^ 64) :
    DecodeObject (EncodeObject o ++ extra) = .ok o := by
  have hOEL : ObjectEncodingLength = 42 := rfl
  have hlen : (EncodeObject o ++ extra).length = 42 + extra.length := by
    simp [EncodeObject_length, h16]
  have hb : EncodeObject o ++ extra =
      o.Typ :: o.Encoding ::
        (beBytes 8 o.CreatedAt ++ (beBytes 8 o.UpdatedAt ++ (beBytes 8 o.ExpireAt ++ (o.ID ++ extra)))) := by
    simp [EncodeObject, List.append_assoc]
  unfold DecodeObject
  rw [if_neg (by omega)]
  rw [hb]
  have d2 : (o.Typ :: o.Encoding ::
      (beBytes 8 o.CreatedAt ++ (beBytes 8 o.UpdatedAt ++ (beBytes 8 o.ExpireAt ++ (o.ID ++ extra))))).drop 2
      = beBytes 8 o.CreatedAt ++ (beBytes 8 o.UpdatedAt ++ (beBytes 8 o.ExpireAt ++ (o.ID ++ extra))) := rfl
  have d10 : (o.Typ :: o.Encoding ::
      (beBytes 8 o.CreatedAt ++ (beBytes 8 o.UpdatedAt ++ (beBytes 8 o.ExpireAt ++ (o.ID ++ extra))))).drop 10
      = beBytes 8 o.UpdatedAt ++ (beBytes 8 o.ExpireAt ++ (o.ID ++ extra)) := by
    show (beBytes 8 o.CreatedAt ++ (beBytes 8 o.UpdatedAt ++ (beBytes 8 o.ExpireAt ++ (o.ID ++ extra)))).drop 8
      = beBytes 8 o.UpdatedAt ++ (beBytes 8 o.ExpireAt ++ (o.ID ++ extra))
    have := drop8_append (beBytes 8 o.CreatedAt) (beBytes 8 o.UpdatedAt ++ (beBytes 8 o.ExpireAt ++ (o.ID ++ extra))) (beBytes_length 8 _) 0
    simpa using this
  have d18 : (o.Typ :: o.Encoding ::
      (beBytes 8 o.CreatedAt ++ (beBytes 8 o.UpdatedAt ++ (beBytes 8 o.ExpireAt ++ (o.ID ++ extra))))).drop 18
      = beBytes 8 o.ExpireAt ++ (o.ID ++ extra) := by
    show (beBytes 8 o.CreatedAt ++ (beBytes 8 o.UpdatedAt ++ (beBytes 8 o.ExpireAt ++ (o.ID ++ extra)))).drop 16
      = beBytes 8 o.ExpireAt ++ (o.ID ++ extra)
    rw [show (16 : Nat) = 8 + 8 from rfl,
        drop8_append _ _ (beBytes_length 8 _),
        drop8_append _ _ (beBytes_length 8 _) 0]
    rfl
  have d26 : (o.Typ :: o.Encoding ::
      (beBytes 8 o.CreatedAt ++ (beBytes 8 o.UpdatedAt ++ (beBytes 8 o.ExpireAt ++ (o.ID ++ extra))))).drop 26
      = o.ID ++ extra := by
    show (beBytes 8 o.CreatedAt ++ (beBytes 8 o.UpdatedAt ++ (beBytes 8 o.ExpireAt ++ (o.ID ++ extra)))).drop 24
      = o.ID ++ extra
    rw [show (24 : Nat) = 8 + 16 from rfl, drop8_append _ _ (beBytes_length 8 _),
        show (16 : Nat) = 8 + 8 from rfl, drop8_append _ _ (beBytes_length 8 _),
        drop8_append _ _ (beBytes_length 8 _) 0]
    rfl
  rw [d2, d10, d18, d26]
  rw [List.take_left' (beBytes_length 8 _), List.take_left' (beBytes_length 8 _),
      List.take_left' (beBytes_length 8 _), List.take_left' h16]
  rw [beNat_beBytes 8 _ (by rw [pow256_8]; exact hc),
      beNat_beBytes 8 _ (by rw [pow256_8]; exact hu),
      beNat_beBytes 8 _ (by rw [pow256_8]; exact he)]
  rfl

theorem decodeZSetMeta_encode (m : ZSetMeta) (ht : m.Obj.Typ = ObjectZSet)
    (h16 : m.Obj.ID.length = 16) (hc : m.Obj.CreatedAt < 2 ^ 64)
    (hu : m.Obj.UpdatedAt < 2 ^ 64) (he : m.Obj.ExpireAt < 2 ^ 64)
    (hl0 : 0 ≤ m.Len) (hl : m.Len < 2 ^ 63) :
    decodeZSetMeta (encodeZSetMeta m) = .ok m := by
  have hemod : m.Len % (2 ^ 64) = m.Len := Int.emod_eq_of_lt hl0 (by omega)
  have hdrop : (EncodeObject m.Obj ++ beBytes 8 (m.Len % (2 ^ 64)).toNat).drop
      ObjectEncodingLength = beBytes 8 (m.Len % (2 ^ 64)).toNat := by
    apply List.drop_left'
    rw [EncodeObject_length, h16]
    rfl
  have hlt : (m.Len % (2 ^ 64)).toNat < 256 ^ 8 := by
    rw [hemod, pow256_8]; omega
  unfold decodeZSetMeta encodeZSetMeta
  rw [DecodeObject_encode m.Obj _ h16 hc hu he]
  dsimp only
  rw [if_neg (by simp [ht])]
  rw [hdrop, if_neg (by simp [beBytes_length])]
  rw [beNat_beBytes 8 _ hlt, hemod]
  unfold int64OfUInt64
  rw [if_pos (by omega), Int.toNat_of_nonneg hl0]

theorem dropLen_append (a l : Bytes) (n i : Nat) (h : a.length = n) :
    (a ++ l).drop (n + i) = l.drop i := by
  rw [← h, List.drop_append]

theorem findColon (ns rest : Bytes) (h : colon ∉ ns) :
    (ns ++ colon :: rest).findIdx? (fun b => b == colon) = some ns.length := by
  induction ns with
  | nil => simp [List.findIdx?]
  | cons a l ih =>
      have h1 : a ≠ colon := fun he => h (he ▸ List.mem_cons_self a l)
      have h2 : colon ∉ l := fun hm => h (List.mem_cons_of_mem a hm)
      simp [List.findIdx?, h1, ih h2]

theorem splitMetaKey_tagKey (ns : Bytes) (d : Nat) (t : Byte) (k : Bytes)
    (hns : colon ∉ ns) (hd : d < 2 ^ 24) :
    splitMetaKey (tagKey ns d t k) = some (ns, d, colon :: k) := by
  unfold splitMetaKey tagKey
  rw [findColon ns _ hns]
  dsimp only
  have e1 : (ns ++ colon :: (beBytes 3 d ++ colon :: t :: colon :: k)).take ns.length = ns :=
    List.take_left ns _
  have e2 : (ns ++ colon :: (beBytes 3 d ++ colon :: t :: colon :: k)).drop (ns.length + 1)
      = beBytes 3 d ++ colon :: t :: colon :: k := by
    rw [List.drop_append]
    rfl
  have e3 : (ns ++ colon :: (beBytes 3 d ++ colon :: t :: colon :: k)).drop (ns.length + 6)
      = colon :: k := by
    rw [List.drop_append]
    show (colon :: (beBytes 3 d ++ colon :: t :: colon :: k)).drop 6 = colon :: k
    show (beBytes 3 d ++ colon :: t :: colon :: k).drop 5 = colon :: k
    rw [show (5 : Nat) = 3 + 2 from rfl, dropLen_append _ _ 3 2 (beBytes_length 3 d)]
    rfl
  rw [e1, e2, e3, List.take_left' (beBytes_length 3 d)]
  unfold toDBID
  rw [beNat_beBytes 3 d (by rw [pow256_3]; exact hd)]


theorem head?_append_left {ns : Bytes} (h : ns ≠ []) (l : Bytes) :
    (ns ++ l).head? = ns.head? := by
  cases ns with
  | nil => exact absurd rfl h
  | cons a u => rfl

/-! ### Claim theorems -/

/-- C3: after a ZREM that brings `meta.len` to 0, the meta key is deleted in
the same transaction, and when `expire_at > 0` the matching expire-index entry
is deleted as well, so no meta key of an empty sorted set is left behind. -/
theorem claim3_zrem_empty_deletes_meta_and_expire (store : Store) (db : DB)
    (key : Bytes) (meta : ZSetMeta) (members : List Bytes)
    (h : meta.Len = (ZRem store db key meta members).1) :
    (ZRem store db key meta members).2 (MetaKey db key) = none ∧
      (0 < meta.Obj.ExpireAt →
        (ZRem store db key meta members).2
          (expireKey (MetaKey db key) meta.Obj.ExpireAt) = none) := by
  unfold ZRem at h ⊢
  dsimp only at h ⊢
  generalize hF : List.foldl
      (zremStep (DataKey db meta.Obj.ID) (ZSetScorePrefix db meta.Obj.ID))
      (store, 0)
      (members.zip (members.map fun m => store (zsetMemberKey (DataKey db meta.Obj.ID) m)))
      = R at h ⊢
  obtain ⟨fs, fd⟩ := R
  dsimp only at h ⊢
  have hd : meta.Len = fd := by
    rcases eq_or_ne (meta.Len - fd) 0 with hc | hc
    · simpa [hc] using h
    · simpa [hc] using h
  rw [if_pos (by omega)]
  dsimp only
  constructor
  · by_cases he : 0 < meta.Obj.ExpireAt
    · rw [if_pos he]
      unfold unExpireAtOp
      rw [if_neg (by omega)]
      simp [Store.del_apply]
    · rw [if_neg he]
      simp [Store.del_apply]
  · intro he
    rw [if_pos he]
    unfold unExpireAtOp
    rw [if_neg (by omega)]
    simp [Store.del_apply]

/-- Witness for C3 at a concrete one-member sorted set with `expire_at = 7`. -/
theorem claim3_witness :
    (({ Obj := { Typ := 3, Encoding := 2, CreatedAt := 1, UpdatedAt := 1,
                 ExpireAt := 7, ID := [9] }
        Len := 1 } : ZSetMeta)).Len =
      (ZRem
        (fun q => if q = zsetMemberKey (DataKey ⟨[110], 1⟩ [9]) [109] then
            some (EncodeFloat64 0) else none)
        ⟨[110], 1⟩ [107]
        { Obj := { Typ := 3, Encoding := 2, CreatedAt := 1, UpdatedAt := 1,
                   ExpireAt := 7, ID := [9] }
          Len := 1 } [[109]]).1 ∧
    (ZRem
        (fun q => if q = zsetMemberKey (DataKey ⟨[110], 1⟩ [9]) [109] then
            some (EncodeFloat64 0) else none)
        ⟨[110], 1⟩ [107]
        { Obj := { Typ := 3, Encoding := 2, CreatedAt := 1, UpdatedAt := 1,
                   ExpireAt := 7, ID := [9] }
          Len := 1 } [[109]]).2 (MetaKey ⟨[110], 1⟩ [107]) = none := by
  refine ⟨by decide, ?_⟩
  exact (claim3_zrem_empty_deletes_meta_and_expire _ _ _ _ _ (by decide)).1

/-- C6 (code bug): at the stored value `"hello"` with `start = 2`, `end = 4`
the source computes `Value[2:][:5]`, which exceeds the slice (`none` models the
Go panic); Redis' clamped inclusive-end semantics, which the claim states,
would return `"llo"`. -/
theorem claim6_getrange_bug_eval :
    StrObj.GetRange
      { key := [107]
        Meta := { Obj := { Typ := 0, Encoding := 0, CreatedAt := 0, UpdatedAt := 0,
                           ExpireAt := 0, ID := [] }
                  Value := some [104, 101, 108, 108, 111] } } 2 4 = none := by
  decide

/-- C7 counterexample: on the well-formed meta key `"n" : <0,0,1> : M : "k"`
`splitMetaKey` does not return exactly the user key `"k" = [107]`: the
remainder it returns starts one byte early, at the `":"` separator. -/
theorem claim7_counterexample :
    splitMetaKey (MetaKey ⟨[110], 1⟩ [107]) ≠ some ([110], 1, [107]) ∧
      splitMetaKey (MetaKey ⟨[110], 1⟩ [107]) = some ([110], 1, [58, 107]) := by
  constructor
  · decide
  · decide

/-- C7 (amended): for every well-formed meta key `NS:D:M:K` with colon-free
`NS` and 3-byte `D`, `splitMetaKey` returns the namespace, the db id, and a
remainder that is off by one: the `":"` separator followed by exactly `K`
(colons inside `K` are preserved, the tail is not re-split). -/
theorem claim7_amended_splitMetaKey (ns k : Bytes) (d : Nat)
    (hns : colon ∉ ns) (hd : d < 2 ^ 24) :
    splitMetaKey (MetaKey ⟨ns, d⟩ k) = some (ns, d, colon :: k) := by
  rw [MetaKey_tagKey]
  exact splitMetaKey_tagKey ns d charM k hns hd

/-- Witness for C7 at the concrete key `"n" : <0,0,1> : M : "k:x"` (a user key
containing a colon). -/
theorem claim7_witness :
    colon ∉ ([110] : Bytes) ∧ (1 : Nat) < 2 ^ 24 ∧
      splitMetaKey (MetaKey ⟨[110], 1⟩ [107, 58, 120]) =
        some ([110], 1, colon :: [107, 58, 120]) :=
  ⟨by decide, by decide,
    claim7_amended_splitMetaKey [110] [107, 58, 120] 1 (by decide) (by decide)⟩

/-- C9: a stored string whose header has `0 < expire_at < now` decodes to an
object that behaves as absent: `GetString` succeeds, the value stays unset,
`Exist` is false and `Get` returns the key-not-found error. (`GetString` is
read-only by construction: it performs no writes to the store.) -/
theorem claim9_expired_string_invisible (store : Store) (db : DB) (key b : Bytes)
    (now : Nat) (obj : Object)
    (hb : store (MetaKey db key) = some b)
    (hdec : DecodeObject b = .ok obj)
    (h0 : 0 < obj.ExpireAt) (hlt : obj.ExpireAt < now) :
    ∃ str, GetString store db key now = .ok str ∧
      str.Meta.Value = none ∧ str.Exist = false ∧ str.Get = .error .keyNotFound := by
  unfold GetString
  rw [hb]
  dsimp only
  unfold StrObj.decode
  rw [hdec]
  dsimp only
  rw [if_pos ⟨by omega, hlt⟩]
  dsimp only
  rw [if_neg (by simp [zeroStrObj, ObjectString]),
      if_neg (by simp [zeroStrObj, ObjectEncodingRaw])]
  exact ⟨_, rfl, rfl, rfl, rfl⟩

/-- Witness for C9 at a concrete expired header (`expire_at = 5 < now = 10`). -/
theorem claim9_witness :
    (fun q => if q = MetaKey ⟨[110], 1⟩ [107] then
        some (EncodeObject { Typ := 0, Encoding := 0, CreatedAt := 0, UpdatedAt := 0,
                             ExpireAt := 5, ID := List.replicate 16 0 }) else none : Store)
      (MetaKey ⟨[110], 1⟩ [107]) =
      some (EncodeObject { Typ := 0, Encoding := 0, CreatedAt := 0, UpdatedAt := 0,
                           ExpireAt := 5, ID := List.replicate 16 0 }) ∧
    DecodeObject (EncodeObject { Typ := 0, Encoding := 0, CreatedAt := 0, UpdatedAt := 0,
                                 ExpireAt := 5, ID := List.replicate 16 0 }) =
      .ok { Typ := 0, Encoding := 0, CreatedAt := 0, UpdatedAt := 0,
            ExpireAt := 5, ID := List.replicate 16 0 } ∧
    (∃ str, GetString
        (fun q => if q = MetaKey ⟨[110], 1⟩ [107] then
          some (EncodeObject { Typ := 0, Encoding := 0, CreatedAt := 0, UpdatedAt := 0,
                               ExpireAt := 5, ID := List.replicate 16 0 }) else none)
        ⟨[110], 1⟩ [107] 10 = .ok str ∧
      str.Meta.Value = none ∧ str.Exist = false ∧ str.Get = .error .keyNotFound) := by
  refine ⟨by simp, rfl, ?_⟩
  exact claim9_expired_string_invisible
    (fun q => if q = MetaKey ⟨[110], 1⟩ [107] then
        some (EncodeObject { Typ := 0, Encoding := 0, CreatedAt := 0, UpdatedAt := 0,
                             ExpireAt := 5, ID := List.replicate 16 0 }) else none)
    ⟨[110], 1⟩ [107]
    (EncodeObject { Typ := 0, Encoding := 0, CreatedAt := 0, UpdatedAt := 0,
                    ExpireAt := 5, ID := List.replicate 16 0 })
    10
    { Typ := 0, Encoding := 0, CreatedAt := 0, UpdatedAt := 0,
      ExpireAt := 5, ID := List.replicate 16 0 }
    (by simp) rfl (by decide) (by decide)

/-- C10 (code bug): when the scan window of `ZAnyOrderRange` holds a key under
the score prefix that is too short to decode, the loop body hits `continue`
without `iter.Next()` or `i++`: the state is a fixed point of the loop while
the guard still holds, so the loop never terminates, contrary to the claim
that every iteration advances the iterator. -/
theorem claim10_zrange_short_key_loops_forever :
    zrangeGuard (ZSetScorePrefix ⟨[110], 1⟩ [48]) 0
      { i := 0, iter := [(ZSetScorePrefix ⟨[110], 1⟩ [48], [])], items := [] } = true ∧
    zrangeStep (ZSetScorePrefix ⟨[110], 1⟩ [48]) 0 false true
      { i := 0, iter := [(ZSetScorePrefix ⟨[110], 1⟩ [48], [])], items := [] } =
      { i := 0, iter := [(ZSetScorePrefix ⟨[110], 1⟩ [48], [])], items := [] } ∧
    ∀ n : Nat,
      (fun st => if zrangeGuard (ZSetScorePrefix ⟨[110], 1⟩ [48]) 0 st then
        zrangeStep (ZSetScorePrefix ⟨[110], 1⟩ [48]) 0 false true st else st)^[n]
        { i := 0, iter := [(ZSetScorePrefix ⟨[110], 1⟩ [48], [])], items := [] } =
        { i := 0, iter := [(ZSetScorePrefix ⟨[110], 1⟩ [48], [])], items := [] } := by
  refine ⟨by decide, by decide, ?_⟩
  intro n
  exact Function.iterate_fixed (by decide) n

/-- C1: when the meta of a user key exists but its id differs from the id
stored in the expire-index entry, `doExpire` only hands the old id's data
prefix over to the GC: the result is exactly the input store with the GC
handoff for the old id recorded, the meta key is unchanged and every key
under the new object's data prefix is unchanged — so a DEL plus re-create
between expiry being set and the reaper tick never deletes the new
object's data. -/
theorem claim1_doExpire_id_mismatch_gcs_only_old_data
    (store : Store) (db : DB) (k id : Bytes) (ts : Nat) (obj : Object)
    (hns0 : db.Namespace ≠ []) (hns1 : db.Namespace.head? ≠ some dollar)
    (hnc : colon ∉ db.Namespace) (hd : db.ID < 2 ^ 24)
    (hobj : getObject store (MetaKey db k) = .ok obj)
    (hlen : id.length = obj.ID.length) (hne : id ≠ obj.ID) :
    doExpire store (MetaKey db k) id ts = .ok (gc store (DataKey db id)) ∧
      gc store (DataKey db id) (MetaKey db k) = store (MetaKey db k) ∧
      ∀ q : Bytes, (DataKey db obj.ID).isPrefixOf q →
        gc store (DataKey db id) q = store q := by
  have hsplit : splitMetaKey (MetaKey db k) = some (db.Namespace, db.ID, colon :: k) := by
    rw [MetaKey_tagKey]
    exact splitMetaKey_tagKey _ _ _ _ hnc hd
  refine ⟨?_, ?_, ?_⟩
  · unfold doExpire
    rw [hsplit]
    dsimp only
    rw [hobj]
    dsimp only
    have hid1 : (if obj.ID.length < id.length then id.take obj.ID.length else id) = id :=
      if_neg (by omega)
    rw [hid1, if_pos (fun he => hne he.symm)]
    rfl
  · unfold gc
    rw [Store.set_apply]
    rw [if_neg]
    intro he
    apply hns1
    rw [MetaKey_tagKey] at he
    rw [← tagKey_head hns0 db.ID charM k, he, gcKey_head]
  · intro q hq
    obtain ⟨tail, rfl⟩ := List.isPrefixOf_iff_prefix.mp hq
    unfold gc
    rw [Store.set_apply, if_neg]
    intro he
    apply hns1
    have hh : (DataKey db obj.ID ++ tail).head? = db.Namespace.head? := by
      rw [DataKey_tagKey]
      unfold tagKey
      rw [List.append_assoc]
      exact head?_append_left hns0 _
    rw [← hh, he, gcKey_head]

/-- Witness for C1 at a concrete re-created key: the stored expire-index id
(all-2s) differs from the live meta id (all-1s). -/
theorem claim1_witness :
    (⟨[110], 1⟩ : DB).Namespace ≠ [] ∧
    (⟨[110], 1⟩ : DB).Namespace.head? ≠ some dollar ∧
    colon ∉ (⟨[110], 1⟩ : DB).Namespace ∧
    (⟨[110], 1⟩ : DB).ID < 2 ^ 24 ∧
    (List.replicate 16 2 : Bytes).length =
      ({ Typ := 3, Encoding := 2, CreatedAt := 0, UpdatedAt := 0,
         ExpireAt := 9, ID := List.replicate 16 1 } : Object).ID.length ∧
    (List.replicate 16 2 : Bytes) ≠ List.replicate 16 1 ∧
    doExpire
      (fun q => if q = MetaKey ⟨[110], 1⟩ [107] then
        some (EncodeObject { Typ := 3, Encoding := 2, CreatedAt := 0, UpdatedAt := 0,
                             ExpireAt := 9, ID := List.replicate 16 1 }) else none)
      (MetaKey ⟨[110], 1⟩ [107]) (List.replicate 16 2) 9 =
      .ok (gc
        (fun q => if q = MetaKey ⟨[110], 1⟩ [107] then
          some (EncodeObject { Typ := 3, Encoding := 2, CreatedAt := 0, UpdatedAt := 0,
                               ExpireAt := 9, ID := List.replicate 16 1 }) else none)
        (DataKey ⟨[110], 1⟩ (List.replicate 16 2))) := by
  refine ⟨by decide, by decide, by decide, by decide, by decide, by decide, ?_⟩
  exact (claim1_doExpire_id_mismatch_gcs_only_old_data
    (fun q => if q = MetaKey ⟨[110], 1⟩ [107] then
      some (EncodeObject { Typ := 3, Encoding := 2, CreatedAt := 0, UpdatedAt := 0,
                           ExpireAt := 9, ID := List.replicate 16 1 }) else none)
    ⟨[110], 1⟩ [107] (List.replicate 16 2) 9
    { Typ := 3, Encoding := 2, CreatedAt := 0, UpdatedAt := 0,
      ExpireAt := 9, ID := List.replicate 16 1 }
    (by decide) (by decide) (by decide) (by decide)
    rfl
    (by decide) (by decide)).1

set_option maxRecDepth 100000 in
/-- C4 counterexample: at a concrete stored string whose header has
`expire_at = 5` and whose expire-index entry is present, APPEND clears
`expire_at` in the header yet deletes nothing: the old expire-index entry is
still present after the operation, refuting the claim that every String
operation that clears `expire_at` (including APPEND) deletes the old
expire-index entry in the same transaction. -/
theorem claim4_counterexample :
    (StrObj.Append
        { key := [107]
          Meta := { Obj := { Typ := 0, Encoding := 0, CreatedAt := 0, UpdatedAt := 0,
                             ExpireAt := 5, ID := List.replicate 16 1 }
                    Value := some [97] } }
        (fun q => if q = expireKey (MetaKey ⟨[110], 1⟩ [107]) 5 then
            some (List.replicate 16 1) else none)
        ⟨[110], 1⟩ [98]).2.1
      (expireKey (MetaKey ⟨[110], 1⟩ [107]) 5) = some (List.replicate 16 1) ∧
    (StrObj.Append
        { key := [107]
          Meta := { Obj := { Typ := 0, Encoding := 0, CreatedAt := 0, UpdatedAt := 0,
                             ExpireAt := 5, ID := List.replicate 16 1 }
                    Value := some [97] } }
        (fun q => if q = expireKey (MetaKey ⟨[110], 1⟩ [107]) 5 then
            some (List.replicate 16 1) else none)
        ⟨[110], 1⟩ [98]).2.2.Meta.Obj.ExpireAt = 0 := by
  constructor
  · decide
  · decide

/-- C4 (amended): SET maintains the expire-index invariant inside one
transaction — with a positive expiry it writes the entry keyed by the new
`expire_at` with value `meta.id` and deletes the old entry (when one exists at
a different timestamp); without an expiry it deletes the old entry and clears
`expire_at`. APPEND, however, clears `expire_at` in the header only: it writes
no key other than the meta key, leaving the old expire-index entry behind. -/
theorem claim4_amended_set_rewrites_append_leaves_expire_index
    (store : Store) (db : DB) (str : StrObj) (val : Bytes) (e now : Nat)
    (hns0 : db.Namespace ≠ []) (hns1 : db.Namespace.head? ≠ some dollar)
    (he : 0 < e) (hold : str.Meta.Obj.ExpireAt < 2 ^ 64) (hnew : now + e < 2 ^ 64) :
    (((StrObj.Set str store db val [e] now).1
        (expireKey (MetaKey db str.key) (now + e)) = some str.Meta.Obj.ID) ∧
      (StrObj.Set str store db val [e] now).2.Meta.Obj.ExpireAt = now + e ∧
      (0 < str.Meta.Obj.ExpireAt → str.Meta.Obj.ExpireAt ≠ now + e →
        (StrObj.Set str store db val [e] now).1
          (expireKey (MetaKey db str.key) str.Meta.Obj.ExpireAt) = none)) ∧
    ((StrObj.Set str store db val [] now).2.Meta.Obj.ExpireAt = 0 ∧
      (0 < str.Meta.Obj.ExpireAt →
        (StrObj.Set str store db val [] now).1
          (expireKey (MetaKey db str.key) str.Meta.Obj.ExpireAt) = none)) ∧
    ((StrObj.Append str store db val).2.2.Meta.Obj.ExpireAt = 0 ∧
      ∀ q : Bytes, q ≠ MetaKey db str.key →
        (StrObj.Append str store db val).2.1 q = store q) := by
  have hmk : ∀ ts, expireKey (MetaKey db str.key) ts ≠ MetaKey db str.key := by
    intro ts
    rw [MetaKey_tagKey]
    exact expireKey_ne_tagKey hns0 hns1
  have hcond : ([e] : List Nat) ≠ [] ∧ 0 < ([e] : List Nat).headD 0 :=
    ⟨by simp, by simpa using he⟩
  refine ⟨⟨?_, ?_, ?_⟩, ⟨?_, ?_⟩, ⟨?_, ?_⟩⟩
  · unfold StrObj.Set
    rw [if_pos hcond]
    dsimp only
    unfold expireAtOp
    dsimp only
    simp only [List.headD_cons]
    rw [if_pos (by omega : 0 < now + e)]
    rw [Store.set_apply, if_neg (hmk _), Store.set_apply, if_pos rfl]
  · unfold StrObj.Set
    rw [if_pos hcond]
    rfl
  · intro h1 h2
    unfold StrObj.Set
    rw [if_pos hcond]
    dsimp only
    unfold expireAtOp
    dsimp only
    simp only [List.headD_cons]
    rw [if_pos (by omega : 0 < now + e), if_pos h1]
    rw [Store.set_apply, if_neg (hmk _), Store.set_apply,
        if_neg (fun hq => h2 (expireKey_ts_inj hold hnew hq)),
        Store.del_apply, if_pos rfl]
  · unfold StrObj.Set
    rw [if_neg (by simp)]
  · intro h1
    unfold StrObj.Set
    rw [if_neg (by simp)]
    dsimp only
    unfold unExpireAtOp
    rw [if_neg (by omega)]
    rw [Store.set_apply, if_neg (hmk _), Store.del_apply, if_pos rfl]
  · rfl
  · intro q hq
    unfold StrObj.Append
    dsimp only
    rw [Store.set_apply, if_neg hq]

theorem clampDiv_bounds (w f : Rat) (hw1 : MINIMUM_WEIGHT ≤ w) (hw2 : w ≤ MAXIMUM_WEIGHT)
    (hf : 1 < f) :
    MINIMUM_WEIGHT ≤ (if w / f < MINIMUM_WEIGHT then MINIMUM_WEIGHT else w / f) ∧
      (if w / f < MINIMUM_WEIGHT then MINIMUM_WEIGHT else w / f) ≤ MAXIMUM_WEIGHT := by
  have h0 : (0 : Rat) ≤ w := le_trans (by norm_num [MINIMUM_WEIGHT]) hw1
  have hd : w / f ≤ w := div_le_self h0 (le_of_lt hf)
  split_ifs with h
  · exact ⟨le_refl _, by norm_num [MINIMUM_WEIGHT, MAXIMUM_WEIGHT]⟩
  · exact ⟨le_of_not_lt h, le_trans hd hw2⟩

theorem clampMul_bounds (w f : Rat) (hw1 : MINIMUM_WEIGHT ≤ w) (hf : 1 < f) :
    MINIMUM_WEIGHT ≤ (if w * f > MAXIMUM_WEIGHT then MAXIMUM_WEIGHT else w * f) ∧
      (if w * f > MAXIMUM_WEIGHT then MAXIMUM_WEIGHT else w * f) ≤ MAXIMUM_WEIGHT := by
  have h0 : (0 : Rat) ≤ w := le_trans (by norm_num [MINIMUM_WEIGHT]) hw1
  have hm : w ≤ w * f := le_mul_of_one_le_right h0 (le_of_lt hf)
  split_ifs with h
  · exact ⟨by norm_num [MINIMUM_WEIGHT, MAXIMUM_WEIGHT], le_refl _⟩
  · exact ⟨le_trans hw1 hm, le_of_not_lt h⟩

theorem balanceWeight_cases (w avg gl : Rat) (peers : List (Rat × Rat)) (dv mu f : Rat) :
    balanceWeight w avg gl peers dv mu f = w ∨
      balanceWeight w avg gl peers dv mu f =
        (if w / f < MINIMUM_WEIGHT then MINIMUM_WEIGHT else w / f) ∨
      balanceWeight w avg gl peers dv mu f =
        (if w * f > MAXIMUM_WEIGHT then MAXIMUM_WEIGHT else w * f) := by
  unfold balanceWeight
  dsimp only
  split_ifs <;> tauto

theorem foldl_weight_ge (peers : List (Rat × Rat)) :
    ∀ w : Rat, (∀ p ∈ peers, 0 ≤ Prod.fst p) → w ≤ peers.foldl (fun a p => a + p.1) w := by
  induction peers with
  | nil => intro w _; exact le_refl w
  | cons p ps ih =>
      intro w hp
      have h1 : 0 ≤ p.1 := hp p (List.mem_cons_self _ _)
      have h2 := ih (w + p.1) (fun q hq => hp q (List.mem_cons_of_mem _ hq))
      calc w ≤ w + p.1 := by linarith
        _ ≤ _ := h2

/-- C8 counterexample: with self weight 1/2, factor 2, global limit 100, one
fresh peer of weight 1/2 and qps 0 (below its divide threshold), and self qps
20 between its own divide threshold 12.5 and multiply threshold 25, the run
leaves the weight at 1/2 — although all fresh peers are below their divide
thresholds, the weight is not multiplied, refuting the claim's "multiplied
... when ... all fresh peers are below their divide thresholds". -/
theorem claim8_counterexample :
    balanceWeight (1 / 2) 20 100 [(1 / 2, 0)] (1 / 4) (1 / 2) 2 = 1 / 2 ∧
      (peerFlags 100 1 (1 / 2) (1 / 4) [(1 / 2, 0)]).2 = true ∧
      (1 / 2 : Rat) ≠ 1 / 2 * 2 := by
  refine ⟨?_, ?_, ?_⟩
  · norm_num [balanceWeight, peerFlags]
  · norm_num [peerFlags]
  · norm_num

/-- C8 (amended): starting from the initial weight 1.0, every run of the
balance procedure keeps `self.weight` within [0.1, 1.0]. The weight strictly
decreases only when self qps is under its divide threshold and some fresh peer
is at or above its multiply threshold (clamped below at 0.1); it is multiplied
by the factor (clamped above at 1.0) when self qps is at or above its multiply
threshold, or when self qps is under its divide threshold and all fresh peers
are below their divide thresholds; when self qps lies between its divide and
multiply thresholds the weight is unchanged. -/
theorem claim8_amended_weight_bounds
    (w avg gl : Rat) (peers : List (Rat × Rat)) (dv mu factor : Rat)
    (skip scanFailed : Bool)
    (hw1 : MINIMUM_WEIGHT ≤ w) (hw2 : w ≤ MAXIMUM_WEIGHT) (hf : 1 < factor)
    (hg : 0 < gl) (hdm : dv < mu) (hpw : ∀ p ∈ peers, 0 ≤ Prod.fst p) :
    (MINIMUM_WEIGHT ≤ balanceRun w gl skip scanFailed avg peers dv mu factor ∧
      balanceRun w gl skip scanFailed avg peers dv mu factor ≤ MAXIMUM_WEIGHT) ∧
    (balanceWeight w avg gl peers dv mu factor < w →
      avg < gl * (w / peers.foldl (fun a p => a + p.1) w) * dv ∧
        (peerFlags gl (peers.foldl (fun a p => a + p.1) w) mu dv peers).1 = true) ∧
    (gl * (w / peers.foldl (fun a p => a + p.1) w) * mu ≤ avg →
      balanceWeight w avg gl peers dv mu factor =
        (if w * factor > MAXIMUM_WEIGHT then MAXIMUM_WEIGHT else w * factor)) ∧
    (avg < gl * (w / peers.foldl (fun a p => a + p.1) w) * dv →
      (peerFlags gl (peers.foldl (fun a p => a + p.1) w) mu dv peers).1 = false →
      (peerFlags gl (peers.foldl (fun a p => a + p.1) w) mu dv peers).2 = true →
      balanceWeight w avg gl peers dv mu factor =
        (if w * factor > MAXIMUM_WEIGHT then MAXIMUM_WEIGHT else w * factor)) ∧
    (gl * (w / peers.foldl (fun a p => a + p.1) w) * dv ≤ avg →
      avg < gl * (w / peers.foldl (fun a p => a + p.1) w) * mu →
      balanceWeight w avg gl peers dv mu factor = w) := by
  have h0 : (0 : Rat) ≤ w := le_trans (by norm_num [MINIMUM_WEIGHT]) hw1
  have hw0 : (0 : Rat) < w := lt_of_lt_of_le (by norm_num [MINIMUM_WEIGHT]) hw1
  have hm : w ≤ w * factor := le_mul_of_one_le_right h0 (le_of_lt hf)
  have hclampMul : w ≤ (if w * factor > MAXIMUM_WEIGHT then MAXIMUM_WEIGHT else w * factor) := by
    split_ifs with h
    · exact hw2
    · exact hm
  refine ⟨?_, ?_, ?_, ?_, ?_⟩
  · unfold balanceRun
    split_ifs with e1 e2 e3
    · exact ⟨hw1, hw2⟩
    · exact ⟨hw1, hw2⟩
    · exact ⟨hw1, hw2⟩
    · rcases balanceWeight_cases w avg gl peers dv mu factor with hc | hc | hc
      · rw [hc]; exact ⟨hw1, hw2⟩
      · rw [hc]; exact clampDiv_bounds w factor hw1 hw2 hf
      · rw [hc]; exact clampMul_bounds w factor hw1 hf
  · intro hlt
    unfold balanceWeight at hlt
    dsimp only at hlt
    by_cases h1 : avg < gl * (w / peers.foldl (fun a p => a + p.1) w) * dv
    · rw [if_pos h1] at hlt
      by_cases h2 : (peerFlags gl (peers.foldl (fun a p => a + p.1) w) mu dv peers).1 = true
      · exact ⟨h1, h2⟩
      · rw [if_neg h2] at hlt
        split_ifs at hlt
        · exact absurd hlt (not_lt.mpr hw2)
        · exact absurd hlt (not_lt.mpr hm)
        · exact absurd hlt (lt_irrefl w)
    · rw [if_neg h1] at hlt
      split_ifs at hlt
      · exact absurd hlt (not_lt.mpr hw2)
      · exact absurd hlt (not_lt.mpr hm)
      · exact absurd hlt (lt_irrefl w)
  · intro h6
    have hT : 0 < peers.foldl (fun a p => a + p.1) w :=
      lt_of_lt_of_le hw0 (foldl_weight_ge peers w hpw)
    have htg : 0 < gl * (w / peers.foldl (fun a p => a + p.1) w) :=
      mul_pos hg (div_pos hw0 hT)
    have hdmu : gl * (w / peers.foldl (fun a p => a + p.1) w) * dv <
        gl * (w / peers.foldl (fun a p => a + p.1) w) * mu :=
      (mul_lt_mul_left htg).mpr hdm
    unfold balanceWeight
    dsimp only
    rw [if_neg (by linarith), if_pos h6]
  · intro h1 hHigh hLow
    unfold balanceWeight
    dsimp only
    rw [if_pos h1, if_neg (by simp [hHigh]), if_pos hLow]
  · intro hge hlt2
    unfold balanceWeight
    dsimp only
    rw [if_neg (not_lt.mpr hge), if_neg (not_le.mpr hlt2)]

/-- Witness for C8 at the initial weight 1.0 with no fresh peers. -/
theorem claim8_witness :
    MINIMUM_WEIGHT ≤ (1 : Rat) ∧ (1 : Rat) ≤ MAXIMUM_WEIGHT ∧ (1 : Rat) < 2 ∧
      (0 : Rat) < 100 ∧ (1 / 4 : Rat) < 1 / 2 ∧
      (MINIMUM_WEIGHT ≤ balanceRun 1 100 false false 0 [] (1 / 4) (1 / 2) 2 ∧
        balanceRun 1 100 false false 0 [] (1 / 4) (1 / 2) 2 ≤ MAXIMUM_WEIGHT) := by
  refine ⟨by norm_num [MINIMUM_WEIGHT], by norm_num [MAXIMUM_WEIGHT], by norm_num,
    by norm_num, by norm_num, ?_⟩
  exact (claim8_amended_weight_bounds 1 0 100 [] (1 / 4) (1 / 2) 2 false false
    (by norm_num [MINIMUM_WEIGHT]) (by norm_num [MAXIMUM_WEIGHT]) (by norm_num)
    (by norm_num) (by norm_num) (by intro p hp; cases hp)).1

theorem tagKey_ne_of_tag {ns : Bytes} {d : Nat} {t u : Byte} {r q : Bytes} (h : t ≠ u) :
    tagKey ns d t r ≠ tagKey ns d u q := fun he => h (tagKey_inj he).1

theorem isNaNBits_eq_false_of_finite {u : Nat} (h : isFiniteBits u = true) :
    isNaNBits u = false := by
  unfold isFiniteBits at h
  unfold isNaNBits
  simp only [bne_iff_ne, ne_eq] at h
  by_cases hc : u / 2 ^ 52 % 2 ^ 11 = 2047
  · exact absurd hc h
  · simp only [Bool.and_eq_false_iff]
    left
    simpa using hc

theorem goFloatEq_refl {u : Nat} (h : isFiniteBits u = true) : goFloatEq u u = true := by
  simp [goFloatEq, isNaNBits_eq_false_of_finite h]

theorem goFloatEq_symm {a b : Nat} (h : goFloatEq a b = true) : goFloatEq b a = true := by
  unfold goFloatEq at h ⊢
  simp only [Bool.and_eq_true, Bool.or_eq_true, Bool.not_eq_true', beq_iff_eq] at h ⊢
  obtain ⟨⟨h1, h2⟩, h3⟩ := h
  refine ⟨⟨h2, h1⟩, ?_⟩
  rcases h3 with h3 | ⟨hz1, hz2⟩
  · exact Or.inl h3.symm
  · exact Or.inr ⟨hz2, hz1⟩

theorem goFloatEq_ne_of_false {a b : Nat} (ha : isFiniteBits a = true)
    (h : goFloatEq a b = false) : a ≠ b := by
  intro he
  subst he
  rw [goFloatEq_refl ha] at h
  simp at h

theorem zsetScoreKey_ne_of_score {db : DB} {uuid m : Bytes} {a b : Nat}
    (ha : a < 2 ^ 64) (hb : b < 2 ^ 64) (h : a ≠ b) :
    zsetScoreKey (ZSetScorePrefix db uuid) (EncodeFloat64 a) m ≠
      zsetScoreKey (ZSetScorePrefix db uuid) (EncodeFloat64 b) m := by
  rw [zsetScoreKey_tagKey, zsetScoreKey_tagKey]
  intro he
  have h1 := (tagKey_inj he).2
  have h2 := List.append_cancel_left h1
  injection h2 with _ h3
  have h4 := (List.append_inj h3 (by simp [EncodeFloat64, beBytes_length])).1
  exact h (EncodeFloat64_inj ha hb h4)

/-- C5: from a fresh key, `ZADD k s m` then `ZADD k s' m` then `ZSCORE k m`
yields `s'` under Go float equality, for finite scores; when the member is
already present with a different score, the second ZADD deletes the old
score-index entry, writes the new member subkey and new score-index entry,
returns 0 added and leaves `meta.len` unchanged. Each command re-reads the
meta from the store via `GetZSet`. -/
theorem claim5_zadd_zadd_zscore
    (store : Store) (db : DB) (zkey uuid m : Bytes) (s s1 now : Nat)
    (h0 : store (MetaKey db zkey) = none)
    (hu : uuid.length = 16) (hnow : now < 2 ^ 64)
    (hs : s < 2 ^ 64) (hs1 : s1 < 2 ^ 64)
    (hfs : isFiniteBits s = true) (hfs1 : isFiniteBits s1 = true) :
    ∃ z0 z1 a2 st2 z2,
      GetZSet store db zkey now uuid = .ok z0 ∧
      GetZSet (ZAdd store db zkey z0 [m] [s]).2.1 db zkey now uuid = .ok z1 ∧
      ZAdd (ZAdd store db zkey z0 [m] [s]).2.1 db zkey z1 [m] [s1] = (a2, st2, z2) ∧
      (∃ sc, ZScore st2 db z2 m = some sc ∧ goFloatEq sc s1 = true) ∧
      (goFloatEq s1 s = false →
        a2 = 0 ∧ z2.Len = z1.Len ∧
        st2 (zsetScoreKey (ZSetScorePrefix db uuid) (EncodeFloat64 s) m) = none ∧
        st2 (zsetMemberKey (DataKey db uuid) m) = some (EncodeFloat64 s1) ∧
        st2 (zsetScoreKey (ZSetScorePrefix db uuid) (EncodeFloat64 s1) m) = some NilValue) := by
  have hne_mem_mk : zsetMemberKey (DataKey db uuid) m ≠ MetaKey db zkey := by
    rw [zsetMemberKey_tagKey, MetaKey_tagKey]
    exact tagKey_ne_of_tag (by decide)
  have hne_sc_mk : ∀ sc : Bytes, zsetScoreKey (ZSetScorePrefix db uuid) sc m ≠ MetaKey db zkey := by
    intro sc
    rw [zsetScoreKey_tagKey, MetaKey_tagKey]
    exact tagKey_ne_of_tag (by decide)
  have hne_mem_sc : ∀ sc : Bytes, zsetMemberKey (DataKey db uuid) m ≠
      zsetScoreKey (ZSetScorePrefix db uuid) sc m := by
    intro sc
    rw [zsetMemberKey_tagKey, zsetScoreKey_tagKey]
    exact tagKey_ne_of_tag (by decide)
  have hGet0 : GetZSet store db zkey now uuid = .ok (⟨⟨ObjectZSet, ObjectEncodingHT, now, now, 0, uuid⟩, 0⟩ : ZSetMeta) := by
    unfold GetZSet
    rw [h0]
  have hZ1 : ZAdd store db zkey (⟨⟨ObjectZSet, ObjectEncodingHT, now, now, 0, uuid⟩, 0⟩ : ZSetMeta) [m] [s] =
      (1,
        ((store.set (zsetMemberKey (DataKey db uuid) m) (EncodeFloat64 s)).set
          (zsetScoreKey (ZSetScorePrefix db uuid) (EncodeFloat64 s) m) NilValue).set
        (MetaKey db zkey) (encodeZSetMeta ⟨⟨ObjectZSet, ObjectEncodingHT, now, now, 0, uuid⟩, 1⟩),
        (⟨⟨ObjectZSet, ObjectEncodingHT, now, now, 0, uuid⟩, 1⟩ : ZSetMeta)) := rfl
  have hmem1 : (((store.set (zsetMemberKey (DataKey db uuid) m) (EncodeFloat64 s)).set
          (zsetScoreKey (ZSetScorePrefix db uuid) (EncodeFloat64 s) m) NilValue).set
        (MetaKey db zkey) (encodeZSetMeta ⟨⟨ObjectZSet, ObjectEncodingHT, now, now, 0, uuid⟩, 1⟩))
        (zsetMemberKey (DataKey db uuid) m) = some (EncodeFloat64 s) := by
    rw [Store.set_apply, if_neg hne_mem_mk, Store.set_apply, if_neg (hne_mem_sc _),
      Store.set_apply, if_pos rfl]
  have hGet1 : GetZSet (((store.set (zsetMemberKey (DataKey db uuid) m) (EncodeFloat64 s)).set
          (zsetScoreKey (ZSetScorePrefix db uuid) (EncodeFloat64 s) m) NilValue).set
        (MetaKey db zkey) (encodeZSetMeta ⟨⟨ObjectZSet, ObjectEncodingHT, now, now, 0, uuid⟩, 1⟩)) db zkey now uuid = .ok (⟨⟨ObjectZSet, ObjectEncodingHT, now, now, 0, uuid⟩, 1⟩ : ZSetMeta) := by
    unfold GetZSet
    rw [show (((store.set (zsetMemberKey (DataKey db uuid) m) (EncodeFloat64 s)).set
          (zsetScoreKey (ZSetScorePrefix db uuid) (EncodeFloat64 s) m) NilValue).set
        (MetaKey db zkey) (encodeZSetMeta ⟨⟨ObjectZSet, ObjectEncodingHT, now, now, 0, uuid⟩, 1⟩)) (MetaKey db zkey) = some (encodeZSetMeta ⟨⟨ObjectZSet, ObjectEncodingHT, now, now, 0, uuid⟩, 1⟩) from by
      rw [Store.set_apply, if_pos rfl]]
    exact decodeZSetMeta_encode _ rfl hu hnow hnow (by norm_num) (by norm_num) (by norm_num)
  cases hgo : goFloatEq s1 s with
  | true =>
      have hZ2 : ZAdd (((store.set (zsetMemberKey (DataKey db uuid) m) (EncodeFloat64 s)).set
          (zsetScoreKey (ZSetScorePrefix db uuid) (EncodeFloat64 s) m) NilValue).set
        (MetaKey db zkey) (encodeZSetMeta ⟨⟨ObjectZSet, ObjectEncodingHT, now, now, 0, uuid⟩, 1⟩)) db zkey (⟨⟨ObjectZSet, ObjectEncodingHT, now, now, 0, uuid⟩, 1⟩ : ZSetMeta) [m] [s1] =
          (0, (((store.set (zsetMemberKey (DataKey db uuid) m) (EncodeFloat64 s)).set
          (zsetScoreKey (ZSetScorePrefix db uuid) (EncodeFloat64 s) m) NilValue).set
        (MetaKey db zkey) (encodeZSetMeta ⟨⟨ObjectZSet, ObjectEncodingHT, now, now, 0, uuid⟩, 1⟩)).set (MetaKey db zkey) (encodeZSetMeta ⟨⟨ObjectZSet, ObjectEncodingHT, now, now, 0, uuid⟩, 1⟩), (⟨⟨ObjectZSet, ObjectEncodingHT, now, now, 0, uuid⟩, 1⟩ : ZSetMeta)) := by
        unfold ZAdd
        dsimp only
        rw [if_pos (by norm_num : (0 : Int) < 1)]
        simp only [List.map_cons, List.map_nil]
        rw [hmem1]
        simp only [List.zip_cons_cons, List.zip_nil_left, List.zip_nil_right,
          List.foldl_cons, List.foldl_nil]
        unfold zaddStep
        dsimp only
        rw [DecodeFloat64_EncodeFloat64 s hs, if_pos hgo]
        norm_num
      refine ⟨(⟨⟨ObjectZSet, ObjectEncodingHT, now, now, 0, uuid⟩, 0⟩ : ZSetMeta), (⟨⟨ObjectZSet, ObjectEncodingHT, now, now, 0, uuid⟩, 1⟩ : ZSetMeta), 0,
        (((store.set (zsetMemberKey (DataKey db uuid) m) (EncodeFloat64 s)).set
          (zsetScoreKey (ZSetScorePrefix db uuid) (EncodeFloat64 s) m) NilValue).set
        (MetaKey db zkey) (encodeZSetMeta ⟨⟨ObjectZSet, ObjectEncodingHT, now, now, 0, uuid⟩, 1⟩)).set (MetaKey db zkey) (encodeZSetMeta ⟨⟨ObjectZSet, ObjectEncodingHT, now, now, 0, uuid⟩, 1⟩), (⟨⟨ObjectZSet, ObjectEncodingHT, now, now, 0, uuid⟩, 1⟩ : ZSetMeta),
        hGet0, ?_, ?_, ?_, ?_⟩
      · rw [hZ1]
        exact hGet1
      · rw [hZ1]
        exact hZ2
      · refine ⟨s, ?_, goFloatEq_symm hgo⟩
        unfold ZScore
        dsimp only
        rw [Store.set_apply, if_neg hne_mem_mk, hmem1]
        dsimp only
        rw [DecodeFloat64_EncodeFloat64 s hs]
      · intro hC
        exact absurd hC (by decide)
  | false =>
      have hsne : s1 ≠ s := goFloatEq_ne_of_false hfs1 hgo
      have hZ2 : ZAdd (((store.set (zsetMemberKey (DataKey db uuid) m) (EncodeFloat64 s)).set
          (zsetScoreKey (ZSetScorePrefix db uuid) (EncodeFloat64 s) m) NilValue).set
        (MetaKey db zkey) (encodeZSetMeta ⟨⟨ObjectZSet, ObjectEncodingHT, now, now, 0, uuid⟩, 1⟩)) db zkey (⟨⟨ObjectZSet, ObjectEncodingHT, now, now, 0, uuid⟩, 1⟩ : ZSetMeta) [m] [s1] =
          (0,
            ((((((store.set (zsetMemberKey (DataKey db uuid) m) (EncodeFloat64 s)).set
          (zsetScoreKey (ZSetScorePrefix db uuid) (EncodeFloat64 s) m) NilValue).set
        (MetaKey db zkey) (encodeZSetMeta ⟨⟨ObjectZSet, ObjectEncodingHT, now, now, 0, uuid⟩, 1⟩)).del (zsetScoreKey (ZSetScorePrefix db uuid) (EncodeFloat64 s) m)).set
            (zsetMemberKey (DataKey db uuid) m) (EncodeFloat64 s1)).set
          (zsetScoreKey (ZSetScorePrefix db uuid) (EncodeFloat64 s1) m) NilValue).set
        (MetaKey db zkey) (encodeZSetMeta ⟨⟨ObjectZSet, ObjectEncodingHT, now, now, 0, uuid⟩, 1⟩),
            (⟨⟨ObjectZSet, ObjectEncodingHT, now, now, 0, uuid⟩, 1⟩ : ZSetMeta)) := by
        unfold ZAdd
        dsimp only
        rw [if_pos (by norm_num : (0 : Int) < 1)]
        simp only [List.map_cons, List.map_nil]
        rw [hmem1]
        simp only [List.zip_cons_cons, List.zip_nil_left, List.zip_nil_right,
          List.foldl_cons, List.foldl_nil]
        unfold zaddStep
        dsimp only
        rw [DecodeFloat64_EncodeFloat64 s hs,
          if_neg (by rw [hgo]; exact Bool.false_ne_true)]
        norm_num
      refine ⟨(⟨⟨ObjectZSet, ObjectEncodingHT, now, now, 0, uuid⟩, 0⟩ : ZSetMeta), (⟨⟨ObjectZSet, ObjectEncodingHT, now, now, 0, uuid⟩, 1⟩ : ZSetMeta), 0,
        ((((((store.set (zsetMemberKey (DataKey db uuid) m) (EncodeFloat64 s)).set
          (zsetScoreKey (ZSetScorePrefix db uuid) (EncodeFloat64 s) m) NilValue).set
        (MetaKey db zkey) (encodeZSetMeta ⟨⟨ObjectZSet, ObjectEncodingHT, now, now, 0, uuid⟩, 1⟩)).del (zsetScoreKey (ZSetScorePrefix db uuid) (EncodeFloat64 s) m)).set
            (zsetMemberKey (DataKey db uuid) m) (EncodeFloat64 s1)).set
          (zsetScoreKey (ZSetScorePrefix db uuid) (EncodeFloat64 s1) m) NilValue).set
        (MetaKey db zkey) (encodeZSetMeta ⟨⟨ObjectZSet, ObjectEncodingHT, now, now, 0, uuid⟩, 1⟩),
        (⟨⟨ObjectZSet, ObjectEncodingHT, now, now, 0, uuid⟩, 1⟩ : ZSetMeta),
        hGet0, ?_, ?_, ?_, ?_⟩
      · rw [hZ1]
        exact hGet1
      · rw [hZ1]
        exact hZ2
      · refine ⟨s1, ?_, goFloatEq_refl hfs1⟩
        unfold ZScore
        dsimp only
        rw [Store.set_apply, if_neg hne_mem_mk, Store.set_apply,
          if_neg (hne_mem_sc _), Store.set_apply, if_pos rfl]
        dsimp only
        rw [DecodeFloat64_EncodeFloat64 s1 hs1]
      · intro _
        refine ⟨rfl, rfl, ?_, ?_, ?_⟩
        · rw [Store.set_apply, if_neg (hne_sc_mk _), Store.set_apply,
            if_neg (zsetScoreKey_ne_of_score hs hs1 (Ne.symm hsne)), Store.set_apply,
            if_neg (fun he => (hne_mem_sc _) he.symm), Store.del_apply, if_pos rfl]
        · rw [Store.set_apply, if_neg hne_mem_mk, Store.set_apply,
            if_neg (hne_mem_sc _), Store.set_apply, if_pos rfl]
        · rw [Store.set_apply, if_neg (hne_sc_mk _), Store.set_apply, if_pos rfl]

/-- Witness for C5: scores 1.0 (bits 0x3FF0000000000000) then 2.0
(bits 0x4000000000000000) on a fresh key. -/
theorem claim5_witness :
    ((fun _ => none : Store) (MetaKey ⟨[110], 1⟩ [107]) = none) ∧
    (List.replicate 16 7 : Bytes).length = 16 ∧
    (3 : Nat) < 2 ^ 64 ∧
    (0x3FF0000000000000 : Nat) < 2 ^ 64 ∧ (0x4000000000000000 : Nat) < 2 ^ 64 ∧
    isFiniteBits 0x3FF0000000000000 = true ∧ isFiniteBits 0x4000000000000000 = true ∧
    (∃ z0 z1 a2 st2 z2,
      GetZSet (fun _ => none) ⟨[110], 1⟩ [107] 3 (List.replicate 16 7) = .ok z0 ∧
      GetZSet (ZAdd (fun _ => none) ⟨[110], 1⟩ [107] z0 [[109]]
          [0x3FF0000000000000]).2.1 ⟨[110], 1⟩ [107] 3 (List.replicate 16 7) = .ok z1 ∧
      ZAdd (ZAdd (fun _ => none) ⟨[110], 1⟩ [107] z0 [[109]] [0x3FF0000000000000]).2.1
          ⟨[110], 1⟩ [107] z1 [[109]] [0x4000000000000000] = (a2, st2, z2) ∧
      (∃ sc, ZScore st2 ⟨[110], 1⟩ z2 [109] = some sc ∧
        goFloatEq sc 0x4000000000000000 = true) ∧
      (goFloatEq 0x4000000000000000 0x3FF0000000000000 = false →
        a2 = 0 ∧ z2.Len = z1.Len ∧
        st2 (zsetScoreKey (ZSetScorePrefix ⟨[110], 1⟩ (List.replicate 16 7))
          (EncodeFloat64 0x3FF0000000000000) [109]) = none ∧
        st2 (zsetMemberKey (DataKey ⟨[110], 1⟩ (List.replicate 16 7)) [109]) =
          some (EncodeFloat64 0x4000000000000000) ∧
        st2 (zsetScoreKey (ZSetScorePrefix ⟨[110], 1⟩ (List.replicate 16 7))
          (EncodeFloat64 0x4000000000000000) [109]) = some NilValue)) := by
  refine ⟨rfl, by decide, by decide, by decide, by decide, by decide, by decide, ?_⟩
  exact claim5_zadd_zadd_zscore (fun _ => none) ⟨[110], 1⟩ [107] (List.replicate 16 7)
    [109] 0x3FF0000000000000 0x4000000000000000 3 rfl (by decide) (by decide)
    (by decide) (by decide) (by decide) (by decide)

theorem zrangeStep_iter_sub (sp : Bytes) (start : Int) (ws po : Bool) (st : RangeState) :
    ∀ p, p ∈ (zrangeStep sp start ws po st).iter → p ∈ st.iter := by
  intro p hp
  unfold zrangeStep at hp
  split at hp
  · exact hp
  · next k v rest heq =>
      split at hp
      · split at hp
        · rw [heq] at hp ⊢
          exact hp
        · dsimp only at hp
          rw [heq]
          exact List.mem_cons_of_mem _ hp
      · dsimp only at hp
        rw [heq]
        exact List.mem_cons_of_mem _ hp

theorem zrangeStep_items_sub (sp : Bytes) (start : Int) (ws po : Bool) (st : RangeState) :
    ∀ x, x ∈ (zrangeStep sp start ws po st).items →
      x ∈ st.items ∨ ∃ k v rest, st.iter = (k, v) :: rest ∧
        (x = (k.drop (sp.length + 1)).drop 9 ∨ x = (k.drop (sp.length + 1)).take 8) := by
  intro x hx
  unfold zrangeStep at hx
  split at hx
  · exact Or.inl hx
  · next k v rest heq =>
      split at hx
      · split at hx
        · exact Or.inl hx
        · dsimp only at hx
          split at hx
          · split at hx
            · simp only [List.mem_append, List.mem_singleton, List.mem_cons,
                List.not_mem_nil, or_false] at hx
              rcases hx with (hx | hx) | hx
              · exact Or.inl hx
              · exact Or.inr ⟨k, v, rest, heq, Or.inl hx⟩
              · exact Or.inr ⟨k, v, rest, heq, Or.inr hx⟩
            · simp only [List.mem_cons, List.mem_append, List.mem_singleton,
                List.not_mem_nil, or_false] at hx
              rcases hx with hx | hx | hx
              · exact Or.inl hx
              · exact Or.inr ⟨k, v, rest, heq, Or.inr hx⟩
              · exact Or.inr ⟨k, v, rest, heq, Or.inl hx⟩
          · simp only [List.mem_append, List.mem_singleton, List.mem_cons,
              List.not_mem_nil, or_false] at hx
            rcases hx with hx | hx
            · exact Or.inl hx
            · exact Or.inr ⟨k, v, rest, heq, Or.inl hx⟩
      · dsimp only at hx
        exact Or.inl hx

theorem zrangeGuard_head (sp : Bytes) (stop : Int) (st : RangeState)
    (hg : zrangeGuard sp stop st = true) :
    ∃ k v rest, st.iter = (k, v) :: rest ∧ sp.isPrefixOf k = true := by
  unfold zrangeGuard at hg
  rw [Bool.and_eq_true] at hg
  obtain ⟨_, hg2⟩ := hg
  split at hg2
  · exact absurd hg2 (by decide)
  · next k v rest heq => exact ⟨k, v, rest, heq, hg2⟩

set_option maxRecDepth 100000 in
/-- C2 counterexample: on a fresh sorted set with user key `"k" = [107]` and
object id sixteen 9-bytes, ZADD leaves the user-key score prefix empty and
writes the score-index entry under the prefix built from the object id — the
entries are keyed by `NS:D:S:ID`, not by `NS:D:S:K` as the claim states. -/
theorem claim2_counterexample :
    (ZAdd (fun _ => none) ⟨[110], 1⟩ [107]
        ⟨⟨ObjectZSet, ObjectEncodingHT, 0, 0, 0, List.replicate 16 9⟩, 0⟩
        [[109]] [0x3FF0000000000000]).2.1
      (zsetScoreKey (ZSetScorePrefix ⟨[110], 1⟩ [107])
        (EncodeFloat64 0x3FF0000000000000) [109]) = none ∧
    (ZAdd (fun _ => none) ⟨[110], 1⟩ [107]
        ⟨⟨ObjectZSet, ObjectEncodingHT, 0, 0, 0, List.replicate 16 9⟩, 0⟩
        [[109]] [0x3FF0000000000000]).2.1
      (zsetScoreKey (ZSetScorePrefix ⟨[110], 1⟩ (List.replicate 16 9))
        (EncodeFloat64 0x3FF0000000000000) [109]) = some NilValue := by
  constructor
  · decide
  · decide

/-- C2 (amended): for ZADD, ZREM and the ZRANGE/ZREVRANGE scan loop, the
score-index entries written, deleted and scanned are keyed under the prefix
`NS:D:S:ID` built from the object id `meta.ID`, not from the user key: a
fresh single-member ZADD writes the entry under the id prefix and touches no
key besides the meta key, the member subkey and that entry; ZREM deletes the
present member's entry under the id prefix; and every item collected by the
range scan is decoded from an iterator key carrying the id prefix. -/
theorem claim2_amended_score_index_keyed_by_object_id
    (store : Store) (db : DB) (zkey uuid m ov : Bytes) (s : Nat) (meta : ZSetMeta)
    (fuel : Nat) (st : RangeState) (start stop : Int) (ws po : Bool)
    (hns0 : db.Namespace ≠ []) (hns1 : db.Namespace.head? ≠ some dollar)
    (hID : meta.Obj.ID = uuid) :
    (meta.Len = 0 →
      (ZAdd store db zkey meta [m] [s]).2.1
          (zsetScoreKey (ZSetScorePrefix db uuid) (EncodeFloat64 s) m) = some NilValue ∧
      ∀ q : Bytes, q ≠ MetaKey db zkey → q ≠ zsetMemberKey (DataKey db uuid) m →
        q ≠ zsetScoreKey (ZSetScorePrefix db uuid) (EncodeFloat64 s) m →
        (ZAdd store db zkey meta [m] [s]).2.1 q = store q) ∧
    (store (zsetMemberKey (DataKey db uuid) m) = some ov →
      (ZRem store db zkey meta [m]).2
        (zsetScoreKey (ZSetScorePrefix db uuid) ov m) = none) ∧
    (∀ x, x ∈ (zrangeLoop (ZSetScorePrefix db meta.Obj.ID) start stop ws po fuel st).items →
      x ∈ st.items ∨ ∃ k v, (k, v) ∈ st.iter ∧
        (ZSetScorePrefix db meta.Obj.ID).isPrefixOf k = true ∧
        (x = (k.drop ((ZSetScorePrefix db meta.Obj.ID).length + 1)).drop 9 ∨
         x = (k.drop ((ZSetScorePrefix db meta.Obj.ID).length + 1)).take 8)) := by
  have hne_sc_mk : zsetScoreKey (ZSetScorePrefix db uuid) (EncodeFloat64 s) m ≠
      MetaKey db zkey := by
    rw [zsetScoreKey_tagKey, MetaKey_tagKey]
    exact tagKey_ne_of_tag (by decide)
  have hne_sc_mk2 : zsetScoreKey (ZSetScorePrefix db uuid) ov m ≠ MetaKey db zkey := by
    rw [zsetScoreKey_tagKey, MetaKey_tagKey]
    exact tagKey_ne_of_tag (by decide)
  have hne_sc_mem : zsetScoreKey (ZSetScorePrefix db uuid) ov m ≠
      zsetMemberKey (DataKey db uuid) m := by
    rw [zsetScoreKey_tagKey, zsetMemberKey_tagKey]
    exact tagKey_ne_of_tag (by decide)
  refine ⟨?_, ?_, ?_⟩
  · intro hLen
    have hcomp : ZAdd store db zkey meta [m] [s] =
        (1, ((store.set (zsetMemberKey (DataKey db uuid) m) (EncodeFloat64 s)).set
              (zsetScoreKey (ZSetScorePrefix db uuid) (EncodeFloat64 s) m) NilValue).set
            (MetaKey db zkey) (encodeZSetMeta { meta with Len := meta.Len + 1 }),
          { meta with Len := meta.Len + 1 }) := by
      unfold ZAdd
      dsimp only
      rw [hID, hLen]
      rw [if_neg (by norm_num)]
      simp only [List.map_cons, List.map_nil, List.zip_cons_cons, List.zip_nil_left,
        List.zip_nil_right, List.foldl_cons, List.foldl_nil]
      unfold zaddStep
      dsimp only
      norm_num
    rw [hcomp]
    dsimp only
    constructor
    · rw [Store.set_apply, if_neg hne_sc_mk, Store.set_apply, if_pos rfl]
    · intro q hq1 hq2 hq3
      rw [Store.set_apply, if_neg hq1, Store.set_apply, if_neg hq3,
        Store.set_apply, if_neg hq2]
  · intro hov
    unfold ZRem
    dsimp only
    rw [hID]
    simp only [List.map_cons, List.map_nil]
    rw [hov]
    simp only [List.zip_cons_cons, List.zip_nil_left, List.zip_nil_right,
      List.foldl_cons, List.foldl_nil]
    unfold zremStep
    dsimp only
    split_ifs with hc he
    · unfold unExpireAtOp
      rw [if_neg (by omega)]
      dsimp only
      rw [Store.del_apply,
        if_neg (by rw [zsetScoreKey_tagKey, MetaKey_tagKey]
                   exact expireKey_ne_tagKey hns0 hns1 ∘ Eq.symm),
        Store.del_apply, if_neg hne_sc_mk2, Store.del_apply, if_neg hne_sc_mem,
        Store.del_apply, if_pos rfl]
    · dsimp only
      rw [Store.del_apply, if_neg hne_sc_mk2, Store.del_apply, if_neg hne_sc_mem,
        Store.del_apply, if_pos rfl]
    · dsimp only
      rw [Store.set_apply, if_neg hne_sc_mk2, Store.del_apply, if_neg hne_sc_mem,
        Store.del_apply, if_pos rfl]
  · intro x
    induction fuel generalizing st with
    | zero =>
        intro hx
        exact Or.inl hx
    | succ n ih =>
        intro hx
        unfold zrangeLoop at hx
        by_cases hg : zrangeGuard (ZSetScorePrefix db meta.Obj.ID) stop st = true
        · rw [if_pos hg] at hx
          rcases ih _ hx with hin | ⟨k, v, hkv, hpre, hform⟩
          · rcases zrangeStep_items_sub _ start ws po st x hin with hin2 |
              ⟨k, v, rest, heq, hform⟩
            · exact Or.inl hin2
            · obtain ⟨k2, v2, rest2, heq2, hpre2⟩ :=
                zrangeGuard_head _ stop st hg
              rw [heq] at heq2
              injection heq2 with heq3 _
              obtain ⟨hk, hv⟩ := Prod.mk.injEq .. ▸ heq3
              refine Or.inr ⟨k, v, ?_, ?_, hform⟩
              · rw [heq]
                exact List.mem_cons_self _ _
              · rw [← hk] at hpre2
                exact hpre2
          · exact Or.inr ⟨k, v, zrangeStep_iter_sub _ start ws po st (k, v) hkv,
              hpre, hform⟩
        · rw [if_neg hg] at hx
          exact Or.inl hx

/-- Witness for C2: instantiating the amended theorem at a fresh single-member
ZADD shows the score-index entry under the object-id prefix. -/
theorem claim2_witness :
    (ZAdd (fun _ => none) ⟨[110], 1⟩ [107]
        ⟨⟨ObjectZSet, ObjectEncodingHT, 0, 0, 0, List.replicate 16 9⟩, 0⟩
        [[109]] [0x3FF0000000000000]).2.1
      (zsetScoreKey (ZSetScorePrefix ⟨[110], 1⟩ (List.replicate 16 9))
        (EncodeFloat64 0x3FF0000000000000) [109]) = some NilValue :=
  ((claim2_amended_score_index_keyed_by_object_id (fun _ => none) ⟨[110], 1⟩ [107]
      (List.replicate 16 9) [109] [0] 0x3FF0000000000000
      ⟨⟨ObjectZSet, ObjectEncodingHT, 0, 0, 0, List.replicate 16 9⟩, 0⟩
      0 ⟨0, [], []⟩ 0 0 false false (by decide) (by decide) rfl).1 rfl).1

/-- Witness for C4: instantiating the amended theorem shows SET with EX 3 at
time 100 writes the expire-index entry for timestamp 103. -/
theorem claim4_witness :
    (StrObj.Set
        { key := [107]
          Meta := { Obj := { Typ := 0, Encoding := 0, CreatedAt := 0, UpdatedAt := 0,
                             ExpireAt := 5, ID := List.replicate 16 1 }
                    Value := some [97] } }
        (fun _ => none) ⟨[110], 1⟩ [99] [3] 100).1
      (expireKey (MetaKey ⟨[110], 1⟩ [107]) (100 + 3)) = some (List.replicate 16 1) :=
  (claim4_amended_set_rewrites_append_leaves_expire_index (fun _ => none) ⟨[110], 1⟩
      { key := [107]
        Meta := { Obj := { Typ := 0, Encoding := 0, CreatedAt := 0, UpdatedAt := 0,
                           ExpireAt := 5, ID := List.replicate 16 1 }
                  Value := some [97] } }
      [99] 3 100 (by decide) (by decide) (by decide) (by decide) (by decide)).1.1

end Titan
